import Mathlib

/-!
# Verification of the event-rental stock management server

A shallow embedding of the REST handlers of the repository (Express +
Mongoose, TypeScript) together with proofs about them.

Modelling conventions:
* JavaScript numbers are embedded as exact rationals `ℚ`;
  `Number(x.toFixed(2))` is embedded as `round2` (round to the nearest
  multiple of 1/100, ties towards +∞, as specified for `toFixed`).
* Mongo document collections keyed by `_id` are association lists
  `List (Nat × α)`; `findById` is first-match lookup and a `save` of a
  fetched document replaces the first matching entry.
* A Mongo multi-document transaction is embedded by threading the state
  through the handler body; `abortTransaction` is embedded by returning
  the state the handler started from.
* HTTP responses are records of the status code plus the JSON body
  fields the handlers actually set.
-/

/-- `Number(x.toFixed(2))`: round to the nearest hundredth, ties towards +∞. -/
def round2 (x : ℚ) : ℚ := (⌊x * 100 + 1/2⌋ : ℤ) / 100

/-- A `Product` document (src/server/models/Product.ts).  Only the fields the
handlers under scrutiny read are embedded.  `buyPrice`/`sellPrice` are kept
optional because the handlers guard them with `??` chains. -/
structure Product where
  name : String
  buyPrice : Option ℚ
  sellPrice : Option ℚ
  stockQty : ℚ
deriving DecidableEq

/-- `Model.findById`: first-match lookup in the collection. -/
def findProduct : List (Nat × Product) → Nat → Option Product
  | [], _ => none
  | (i, p) :: rest, pid => if i = pid then some p else findProduct rest pid

/-- `document.save()` for a fetched product: replace the first entry with the
matching id. -/
def setProduct : List (Nat × Product) → Nat → Product → List (Nat × Product)
  | [], _, _ => []
  | (i, p) :: rest, pid, q =>
    if i = pid then (i, q) :: rest else (i, p) :: setProduct rest pid q

/-- The stock quantity the collection records for `pid` (0 when absent). -/
def stockOf (ps : List (Nat × Product)) (pid : Nat) : ℚ :=
  match findProduct ps pid with
  | some p => p.stockQty
  | none => 0

/-- A JSON error/success body: the fields the embedded handlers actually set,
together with the HTTP status code. -/
structure Response where
  status : Nat
  error : Option String := none
  code : Option String := none
  productId : Option Nat := none
  productName : Option String := none
  shortage : Option ℚ := none
deriving DecidableEq

def respOk : Response := { status := 200 }
def respCreated : Response := { status := 201 }
def respBad (msg : String) : Response := { status := 400, error := some msg }
def respNotFound (msg : String) : Response := { status := 404, error := some msg }
def respColdLead : Response :=
  { status := 403, error := some "Cold lead - actions disabled", code := some "COLD_LEAD" }
def respServerError (msg : String) : Response := { status := 500, error := some msg }

/-! ## The B2B stock allocator

`consumeProductStock` lives in `src/server/utils/b2bStock.ts`, which is not
part of the sources here; only its callers are (`createInvoice` /
`updateInvoice` in the invoice routes and `updateStock` in the stock routes).
It is therefore modelled from the spec. -/

/-- A `B2BStock` lot: third-party supplier inventory with a remaining
`quantityAvailable` (shape taken from the callers, which restore allocations
with `$inc: { quantityAvailable: alloc.quantity }` keyed by `alloc.stockId`). -/
structure B2BLot where
  stockId : Nat
  quantityAvailable : ℚ
deriving DecidableEq

/-- One allocation drawn from a B2B lot (the `b2bUsages` entries the callers
persist as `b2bAllocations`). -/
structure B2BUsage where
  stockId : Nat
  quantity : ℚ
deriving DecidableEq

/-- The details carried by the typed insufficient-stock failure
(`err.code === "INSUFFICIENT_STOCK"`, `err.details.{requested, mainAvailable,
b2bAvailable}` as read by the invoice routes). -/
structure InsufficientStockErr where
  code : String
  requested : ℚ
  mainAvailable : ℚ
  b2bAvailable : ℚ
deriving DecidableEq

/-- A successful allocation: how much primary stock was used, the B2B lots
drawn from, the product's projected remaining primary stock (read back by
`updateStock` as `result.projectedStock`), and the lots after the draw. -/
structure Allocation where
  mainUsed : ℚ
  b2bUsages : List B2BUsage
  projectedStock : ℚ
  lotsAfter : List B2BLot
deriving DecidableEq

def b2bTotal (lots : List B2BLot) : ℚ :=
  (lots.map (·.quantityAvailable)).sum

def usageTotal (us : List B2BUsage) : ℚ :=
  (us.map (·.quantity)).sum

/-- Greedy draw of `need` from the lots in the order listed: take from each
lot until the need is met. -/
def allocateB2B : List B2BLot → ℚ → (List B2BUsage × List B2BLot)
  | lots, need =>
    if need ≤ 0 then ([], lots)
    else
      match lots with
      | [] => ([], [])
      | lot :: rest =>
        let take := min need lot.quantityAvailable
        let (us, rest') := allocateB2B rest (need - take)
        (⟨lot.stockId, take⟩ :: us,
          { lot with quantityAvailable := lot.quantityAvailable - take } :: rest')

/-- Modelled from the spec: `consumeProductStock` of
`src/server/utils/b2bStock.ts` is missing from the sources.  Per the spec it,
"given a requested quantity, consume[s] from primary stock first, then
iterate[s] secondary stock lots (... as listed) until the requirement is met
or exhausted, raising a typed \x22insufficient stock\x22 failure otherwise";
the failure's shape (`code = "INSUFFICIENT_STOCK"`, `details.requested`,
`details.mainAvailable`, `details.b2bAvailable`) and the success shape
(`b2bUsages`, `projectedStock`) are those its in-repo callers consume. -/
def consumeProductStock (main : ℚ) (lots : List B2BLot) (quantity : ℚ) :
    Except InsufficientStockErr Allocation :=
  if main + b2bTotal lots < quantity then
    .error ⟨"INSUFFICIENT_STOCK", quantity, main, b2bTotal lots⟩
  else
    let mainUsed := min main quantity
    let (us, lots') := allocateB2B lots (quantity - mainUsed)
    .ok ⟨mainUsed, us, main - mainUsed, lots'⟩

/-! ## Event documents (src/server/models/Event.ts) -/

/-- A selection/dispatch line (`selectionSchema`): the fields the dispatch and
return handlers read or write. -/
structure SelectionItem where
  productId : Nat
  name : String
  stockQty : ℚ
  qtyToSend : ℚ
  returnedQty : ℚ
  completed : Bool
  rate : ℚ
  amount : ℚ
deriving DecidableEq

/-- An entry of `event.dispatches` / `event.dispatchDrafts`. -/
structure DispatchRecord where
  items : List SelectionItem
  total : ℚ
  /-- whether the record carries `note: { mode: "reserve" }` (dry-run drafts do). -/
  reserveNote : Bool
deriving DecidableEq

/-- A line of a return record (the `sanitized` objects `returnEvent` pushes). -/
structure ReturnLine where
  productId : Nat
  name : String
  stockQty : ℚ
  qtyToSend : ℚ
  qtyReturned : ℚ
  shortage : ℚ
  damageAmount : ℚ
  lateFee : ℚ
  lossPrice : ℚ
  shortageCost : ℚ
  rate : ℚ
  amount : ℚ
  lineAdjust : ℚ
deriving DecidableEq

/-- An entry of `event.returns`. -/
structure ReturnRecord where
  items : List ReturnLine
  total : ℚ
  shortages : ℚ
  damages : ℚ
  lateFee : ℚ
deriving DecidableEq

/-- An `Event` document: the fields `dispatchEvent`/`returnEvent` touch. -/
structure EventDoc where
  status : String
  selections : List SelectionItem
  dispatches : List DispatchRecord
  dispatchDrafts : List DispatchRecord
  returns : List ReturnRecord
deriving DecidableEq

/-- The transactional state a dispatch/return handler reads and writes: the
product collection and the event document it operates on (`none` embeds a
missing event id).  Audit-log/stock-ledger side collections are append-only
and read by no claim; they are not embedded. -/
structure EvState where
  products : List (Nat × Product)
  event : Option EventDoc
deriving DecidableEq

/-- One entry of the `items` array of a dispatch request.  `productId = none`
embeds a missing/falsy `it.productId`; `qty`/`rate` embed
`Number(it.qty || 0)` / `Number(it.rate || 0)`. -/
structure DispatchItem where
  productId : Option Nat
  qty : ℚ
  rate : ℚ
deriving DecidableEq

/-- The per-item loop of `dispatchEvent` (events.ts, lines 344-389): validate
the payload, look the product up, check `product.stockQty < qty`, and (unless
`dryRun`) decrement and save the product; each iteration pushes a `sanitized`
line whose `stockQty` is the product's stock after the (possibly skipped)
decrement and whose `amount` is `Number((qty * rate).toFixed(2))`.  An error
return embeds `abortTransaction` followed by the error response. -/
def processDispatch (dryRun : Bool) (ps : List (Nat × Product)) :
    List DispatchItem →
    Except Response (List (Nat × Product) × List SelectionItem × ℚ)
  | [] => .ok (ps, [], 0)
  | it :: rest =>
    match it.productId with
    | none => .error (respBad "Invalid item payload")
    | some pid =>
      if it.qty ≤ 0 then .error (respBad "Invalid item payload")
      else
        match findProduct ps pid with
        | none => .error (respNotFound ("Product " ++ toString pid ++ " not found"))
        | some p =>
          if p.stockQty < it.qty then
            .error (respBad ("Insufficient stock for product " ++ p.name))
          else
            let p' := if dryRun then p else { p with stockQty := p.stockQty - it.qty }
            let ps' := if dryRun then ps else setProduct ps pid p'
            let amount := round2 (it.qty * it.rate)
            let line : SelectionItem :=
              { productId := pid, name := p.name, stockQty := p'.stockQty,
                qtyToSend := it.qty, returnedQty := 0, completed := false,
                rate := it.rate, amount := amount }
            match processDispatch dryRun ps' rest with
            | .error r => .error r
            | .ok (psf, lines, tot) => .ok (psf, line :: lines, amount + tot)

/-- `dispatchEvent` (events.ts, lines 299-449), one transaction attempt.
`dryRun` is `req.query.dryRun ∈ {"1","true"} || !!req.body.dryRun`;
`coldLead` embeds the cold-lead guard's lookup result.  On any error the
transaction is aborted, so the returned state is the initial one. -/
def dispatchEvent (st : EvState) (items : List DispatchItem)
    (dryRun coldLead : Bool) : Response × EvState :=
  if items.isEmpty then (respBad "items are required", st)
  else
    match st.event with
    | none => (respNotFound "Event not found", st)
    | some ev =>
      if coldLead then (respColdLead, st)
      else
        match processDispatch dryRun st.products items with
        | .error r => (r, st)
        | .ok (ps', lines, total) =>
          if dryRun then
            (respOk,
              { products := ps',
                event := some { ev with
                  dispatchDrafts := ev.dispatchDrafts ++ [⟨lines, total, true⟩],
                  status := "reserved" } })
          else
            (respOk,
              { products := ps',
                event := some { ev with
                  dispatches := ev.dispatches ++ [⟨lines, total, false⟩],
                  status := "dispatched" } })

/-! ## Event return (events.ts, `returnEvent`) -/

/-- One entry of the `items` array of a return request.  `expected`,
`returned`, `damageAmount`, `lateFee` embed `Number(x || 0)`; `shortage`,
`lossPrice` and `rate` stay optional because the handler reads them with
`??` chains. -/
structure ReturnItem where
  productId : Option Nat
  expected : ℚ
  returned : ℚ
  shortage : Option ℚ
  damageAmount : ℚ
  lateFee : ℚ
  lossPrice : Option ℚ
  rate : Option ℚ
deriving DecidableEq

/-- `it.shortage ?? Math.max(0, expected - returned)`. -/
def lineShortage (it : ReturnItem) : ℚ :=
  it.shortage.getD (max 0 (it.expected - it.returned))

/-- `Number(it.lossPrice ?? product.buyPrice ?? it.rate ?? 0)`. -/
def lineLossPrice (it : ReturnItem) (p : Product) : ℚ :=
  it.lossPrice.getD (p.buyPrice.getD (it.rate.getD 0))

/-- `targetItems.find(ti => ti.productId === product._id)` followed by the
in-place `returnedQty`/`completed` update: bump the first matching line. -/
def bumpReturned (pid : Nat) (returned : ℚ) :
    List SelectionItem → List SelectionItem
  | [] => []
  | ti :: rest =>
    if ti.productId = pid then
      { ti with returnedQty := ti.returnedQty + returned,
                completed := decide (ti.qtyToSend ≤ ti.returnedQty + returned) } :: rest
    else ti :: bumpReturned pid returned rest

/-- What the return loop threads and accumulates. -/
structure ReturnLoopOut where
  products : List (Nat × Product)
  target : List SelectionItem
  lines : List ReturnLine
  totalShortageCost : ℚ
  totalDamage : ℚ
  totalLate : ℚ
deriving DecidableEq

/-- The per-item loop of `returnEvent` (events.ts, lines 503-597): validate,
look the product up, add the returned quantity to its stock, compute the
shortage/damage/late-fee adjustments with `toFixed(2)` rounding, and update
the matching dispatched/selection line.  The stock-ledger and issue-txn
entries it also creates are append-only side collections no claim reads and
are not embedded. -/
def processReturn (ps : List (Nat × Product)) (target : List SelectionItem) :
    List ReturnItem → Except Response ReturnLoopOut
  | [] => .ok ⟨ps, target, [], 0, 0, 0⟩
  | it :: rest =>
    match it.productId with
    | none => .error (respBad "Invalid item payload")
    | some pid =>
      if it.expected < 0 ∨ it.returned < 0 ∨ lineShortage it < 0 then
        .error (respBad "Invalid item payload")
      else
        match findProduct ps pid with
        | none => .error (respNotFound ("Product " ++ toString pid ++ " not found"))
        | some p =>
          let p' := { p with stockQty := p.stockQty + it.returned }
          let ps' := setProduct ps pid p'
          let shortage := lineShortage it
          let lossPrice := lineLossPrice it p
          let shortageCost := round2 (shortage * lossPrice)
          let lineAdjust := round2 (shortageCost + it.damageAmount + it.lateFee)
          let target' := bumpReturned pid it.returned target
          let rate := it.rate.getD (p.sellPrice.getD (p.buyPrice.getD 0))
          let amount := round2 (it.returned * rate)
          let line : ReturnLine :=
            { productId := pid, name := p.name, stockQty := p'.stockQty,
              qtyToSend := it.expected, qtyReturned := it.returned,
              shortage := shortage, damageAmount := it.damageAmount,
              lateFee := it.lateFee, lossPrice := lossPrice,
              shortageCost := shortageCost, rate := rate, amount := amount,
              lineAdjust := lineAdjust }
          match processReturn ps' target' rest with
          | .error r => .error r
          | .ok out =>
            .ok ⟨out.products, out.target, line :: out.lines,
                 shortageCost + out.totalShortageCost,
                 it.damageAmount + out.totalDamage,
                 it.lateFee + out.totalLate⟩

/-- The items the return works against: the last confirmed dispatch if any,
else the agreement selections. -/
def targetItemsOf (ev : EventDoc) : List SelectionItem :=
  match ev.dispatches.getLast? with
  | some d => d.items
  | none => ev.selections

/-- `lastDispatch.items = targetItems`: replace the items of the last
dispatch record. -/
def replaceLastItems : List DispatchRecord → List SelectionItem → List DispatchRecord
  | [], _ => []
  | [d], its => [{ d with items := its }]
  | d :: rest, its => d :: replaceLastItems rest its

/-- `returnEvent` (events.ts, lines 451-676), one transaction attempt. -/
def returnEvent (st : EvState) (items : List ReturnItem) (coldLead : Bool) :
    Response × EvState :=
  match st.event with
  | none => (respNotFound "Event not found", st)
  | some ev =>
    if coldLead then (respColdLead, st)
    else
      match processReturn st.products (targetItemsOf ev) items with
      | .error r => (r, st)
      | .ok out =>
        let rcd : ReturnRecord :=
          { items := out.lines,
            total := round2 (out.totalShortageCost + out.totalDamage + out.totalLate),
            shortages := (out.lines.map (·.shortage)).sum,
            damages := (out.lines.map (·.damageAmount)).sum,
            lateFee := (out.lines.map (·.lateFee)).sum }
        let ev' :=
          if ev.dispatches.isEmpty then { ev with selections := out.target }
          else { ev with dispatches := replaceLastItems ev.dispatches out.target }
        let allCompleted := out.target.isEmpty || out.target.all (·.completed)
        let ev'' :=
          { ev' with returns := ev'.returns ++ [rcd],
                     status := if allCompleted then "returned" else ev'.status }
        (respOk, { products := out.products, event := some ev'' })

/-! ## Stock routes (src/server/routes/stock.ts, `updateStock`) -/

/-- The `type` field of a validated stock-update request
(`"in" | "out" | "adjustment"`). -/
inductive StockUpdateKind where
  | stockIn
  | stockOut
  | adjustment
deriving DecidableEq

/-- Main products plus the B2B lots `consumeProductStock` may draw from. -/
structure StockState where
  products : List (Nat × Product)
  lots : List B2BLot
deriving DecidableEq

/-- `updateStock` (stock.ts, lines 177-245).  The request has already passed
`stockUpdateSchema` (the Joi schemas are not under the sources; validity of
`quantity` is taken as a hypothesis where a claim needs it).  The stock-ledger
entry it records is an append-only side collection no claim reads and is not
embedded. -/
def updateStock (st : StockState) (productId : Nat) (kind : StockUpdateKind)
    (quantity : ℚ) : Response × StockState :=
  match findProduct st.products productId with
  | none => (respNotFound "Product not found", st)
  | some p =>
    match kind with
    | .stockIn =>
      (respOk,
        { st with products :=
            setProduct st.products productId { p with stockQty := p.stockQty + quantity } })
    | .stockOut =>
      match consumeProductStock p.stockQty st.lots quantity with
      | .error _ => (respBad "Insufficient stock for this operation", st)
      | .ok alloc =>
        (respOk,
          { products :=
              setProduct st.products productId { p with stockQty := alloc.projectedStock },
            lots := alloc.lotsAfter })
    | .adjustment =>
      (respOk,
        { st with products :=
            setProduct st.products productId { p with stockQty := quantity } })

/-! ## Invoice routes

Two `createInvoice` implementations coexist in the repository:
`src/server/routes/invoices.ts` decrements main stock only, while the
unnamed invoice route file uses `consumeProductStock` for a main + B2B
fallback. -/

/-- A validated invoice line (`invoiceSchema` output): the fields the stock
loops read. -/
structure InvoiceItem where
  productId : Nat
  qty : ℚ
  isAdjustment : Bool
deriving DecidableEq

/-- An invoice line as persisted by the B2B-fallback version, which attaches
the `b2bAllocations` drawn for it (empty for adjustments and for the
main-only version). -/
structure StoredInvoiceItem where
  productId : Nat
  qty : ℚ
  isAdjustment : Bool
  b2bAllocations : List B2BUsage
deriving DecidableEq

/-- The stock loop of the main-only `createInvoice`
(src/server/routes/invoices.ts, lines 102-147): skip adjustments, require the
product, require `stockQty ≥ qty`, decrement.  A thrown `Error` carries a
message; the handler's catch turns it into a 500. -/
def processInvoiceMain (ps : List (Nat × Product)) :
    List InvoiceItem → Except String (List (Nat × Product))
  | [] => .ok ps
  | item :: rest =>
    if item.isAdjustment then processInvoiceMain ps rest
    else
      match findProduct ps item.productId with
      | none => .error ("Product not found: " ++ toString item.productId)
      | some p =>
        if p.stockQty < item.qty then
          .error ("Insufficient stock for " ++ p.name ++ ". Available: " ++
            toString p.stockQty ++ ", Required: " ++ toString item.qty)
        else
          processInvoiceMain
            (setProduct ps item.productId { p with stockQty := p.stockQty - item.qty })
            rest

/-- `createInvoice` of src/server/routes/invoices.ts (lines 82-164):
finalization runs the main-only stock loop inside the transaction; a throw
aborts it and the catch answers 500 with the error's message.  Success
answers 201.  The stock-ledger / issue-register writes are side collections
no claim reads and are not embedded. -/
def createInvoiceMain (ps : List (Nat × Product)) (items : List InvoiceItem)
    (finalize : Bool) : Response × List (Nat × Product) :=
  if finalize then
    match processInvoiceMain ps items with
    | .error msg => (respServerError msg, ps)
    | .ok ps' => (respCreated, ps')
  else (respCreated, ps)

/-- What the B2B-fallback stock loop produces. -/
structure InvoiceLoopOut where
  products : List (Nat × Product)
  lots : List B2BLot
  items : List StoredInvoiceItem
deriving DecidableEq

/-- The `Stock Required` 400 body of the B2B-fallback invoice routes, with
`shortage = max(0, requested - mainAvailable - b2bAvailable)` taken from the
typed failure's details. -/
def respStockRequired (pid : Nat) (pname : String) (e : InsufficientStockErr) :
    Response :=
  { status := 400, error := some "Stock Required", productId := some pid,
    productName := some pname,
    shortage := some (max 0 (e.requested - e.mainAvailable - e.b2bAvailable)) }

/-- The stock loop shared verbatim by `createInvoice` and the draft-to-final
branch of `updateInvoice` in the B2B-fallback invoice route file (lines
111-183 and 259-328): skip adjustments, require the product, allocate via
`consumeProductStock`, record the allocations on the item.  An
`INSUFFICIENT_STOCK` failure aborts and answers the `Stock Required` 400; a
missing product throws, which the outer catch turns into a 500. -/
def processInvoiceB2B (ps : List (Nat × Product)) (lots : List B2BLot) :
    List InvoiceItem → Except Response InvoiceLoopOut
  | [] => .ok ⟨ps, lots, []⟩
  | item :: rest =>
    if item.isAdjustment then
      match processInvoiceB2B ps lots rest with
      | .error r => .error r
      | .ok out =>
        .ok { out with items := ⟨item.productId, item.qty, true, []⟩ :: out.items }
    else
      match findProduct ps item.productId with
      | none => .error (respServerError ("Product not found: " ++ toString item.productId))
      | some p =>
        match consumeProductStock p.stockQty lots item.qty with
        | .error e => .error (respStockRequired item.productId p.name e)
        | .ok alloc =>
          let ps' := setProduct ps item.productId { p with stockQty := alloc.projectedStock }
          match processInvoiceB2B ps' alloc.lotsAfter rest with
          | .error r => .error r
          | .ok out =>
            .ok { out with
                  items := ⟨item.productId, item.qty, false, alloc.b2bUsages⟩ :: out.items }

/-- `createInvoice` of the B2B-fallback invoice route file (lines 90-202). -/
def createInvoiceB2B (ps : List (Nat × Product)) (lots : List B2BLot)
    (items : List InvoiceItem) (finalize : Bool) :
    Response × List (Nat × Product) × List B2BLot × List StoredInvoiceItem :=
  if finalize then
    match processInvoiceB2B ps lots items with
    | .error r => (r, ps, lots, [])
    | .ok out => (respCreated, out.products, out.lots, out.items)
  else (respCreated, ps, lots, items.map (fun it => ⟨it.productId, it.qty, it.isAdjustment, []⟩))

/-- `Product.findByIdAndUpdate(pid, { $inc: { stockQty: d } })`:
increment the first match, no-op when absent. -/
def incProductStock (ps : List (Nat × Product)) (pid : Nat) (d : ℚ) :
    List (Nat × Product) :=
  match findProduct ps pid with
  | none => ps
  | some p => setProduct ps pid { p with stockQty := p.stockQty + d }

/-- `B2BStock.findByIdAndUpdate(stockId, { $inc: { quantityAvailable: q } })`. -/
def incLot : List B2BLot → Nat → ℚ → List B2BLot
  | [], _, _ => []
  | lot :: rest, sid, q =>
    if lot.stockId = sid then
      { lot with quantityAvailable := lot.quantityAvailable + q } :: rest
    else lot :: incLot rest sid q

/-- The restore loop shared by the final-to-draft branch of `updateInvoice`
and by `deleteInvoice` in the B2B-fallback invoice route file: put each
item's quantity back on the product and each of its recorded B2B allocations
back on its lot. -/
def restoreInvoiceItems (ps : List (Nat × Product)) (lots : List B2BLot) :
    List StoredInvoiceItem → List (Nat × Product) × List B2BLot
  | [] => (ps, lots)
  | item :: rest =>
    let ps' := incProductStock ps item.productId item.qty
    let lots' := item.b2bAllocations.foldl (fun ls a => incLot ls a.stockId a.quantity) lots
    restoreInvoiceItems ps' lots' rest

/-- An `Invoice` document: the fields the update/delete/FK reasoning reads. -/
structure InvoiceDoc where
  clientId : Nat
  eventId : Option Nat
  status : String
  items : List StoredInvoiceItem
deriving DecidableEq

/-- `updateInvoice` of the B2B-fallback invoice route file (lines 204-352):
final-to-draft reverses the stock changes, draft-to-final runs the shared
allocation loop; the document is then replaced by the validated value. -/
def updateInvoiceB2B (ps : List (Nat × Product)) (lots : List B2BLot)
    (existing : Option InvoiceDoc) (clientId : Nat) (newStatus : String)
    (items : List InvoiceItem) :
    Response × List (Nat × Product) × List B2BLot × Option InvoiceDoc :=
  match existing with
  | none => (respNotFound "Invoice not found", ps, lots, none)
  | some inv =>
    if inv.status = "final" ∧ newStatus = "draft" then
      let (ps', lots') := restoreInvoiceItems ps lots inv.items
      (respOk, ps', lots',
        some ⟨clientId, inv.eventId, newStatus,
          items.map (fun it => ⟨it.productId, it.qty, it.isAdjustment, []⟩)⟩)
    else if inv.status = "draft" ∧ newStatus = "final" then
      match processInvoiceB2B ps lots items with
      | .error r => (r, ps, lots, some inv)
      | .ok out =>
        (respOk, out.products, out.lots,
          some ⟨clientId, inv.eventId, newStatus, out.items⟩)
    else
      (respOk, ps, lots,
        some ⟨clientId, inv.eventId, newStatus,
          items.map (fun it => ⟨it.productId, it.qty, it.isAdjustment, []⟩)⟩)

/-- `deleteInvoice` of the B2B-fallback invoice route file (lines 354-410):
restore stock if the invoice was final, then delete; 404 when absent. -/
def deleteInvoice (ps : List (Nat × Product)) (lots : List B2BLot)
    (inv : Option InvoiceDoc) :
    Response × List (Nat × Product) × List B2BLot × Option InvoiceDoc :=
  match inv with
  | none => (respNotFound "Invoice not found", ps, lots, none)
  | some i =>
    if i.status = "final" then
      let (ps', lots') := restoreInvoiceItems ps lots i.items
      (respOk, ps', lots', none)
    else (respOk, ps, lots, none)

/-! ## Invoice payments (unnamed route file, `createInvoicePayment`) -/

/-- `invoice.totals` (src/server/models/Invoice.ts): the fields the payment
handler reads and writes. -/
structure InvoiceTotals where
  grandTotal : ℚ
  paid : ℚ
  pending : ℚ
deriving DecidableEq

/-- A recorded `Payment` document (only its amount matters to the claims). -/
structure PaymentDoc where
  amount : ℚ
deriving DecidableEq

/-- `createInvoicePayment` (unnamed route file, lines 7-59): clamp the
payment to the outstanding balance, record it, and update the totals with
`toFixed(2)` rounding. -/
def createInvoicePayment (inv : Option InvoiceTotals) (amount : ℚ) :
    Response × Option InvoiceTotals × Option PaymentDoc :=
  match inv with
  | none => (respNotFound "Invoice not found", none, none)
  | some t =>
    let currentPaid := t.paid
    let grand := t.grandTotal
    let pendingBefore := max 0 (grand - currentPaid)
    if amount ≤ 0 then (respBad "Amount must be > 0", some t, none)
    else
      let credit := min amount pendingBefore
      let newPaid := round2 (currentPaid + credit)
      let newPending := max 0 (round2 (grand - newPaid))
      (respCreated, some { t with paid := newPaid, pending := newPending },
        some ⟨credit⟩)

/-! ## Retry-on-conflict (events.ts, `dispatchEvent` / `returnEvent`) -/

/-- What one transaction attempt of a handler does: either it produces a
response, or the database client raises an error whose
`TransientTransactionError` label / `WriteConflict` code name classifies it
as transient or not. -/
inductive AttemptOutcome where
  | ok (r : Response)
  | err (transient : Bool)
deriving DecidableEq

/-- The `for (let attempt = 1; attempt <= maxRetries; attempt++)` loop around
the dispatch/return transaction bodies: a response returns immediately, a
transient error with attempts left retries, anything else answers 500. -/
def retryFrom (maxRetries : Nat) (run : Nat → AttemptOutcome) :
    Nat → Nat → Response
  | 0, _ => respServerError "Internal server error"
  | fuel + 1, attempt =>
    match run attempt with
    | .ok r => r
    | .err t =>
      if t then
        if attempt < maxRetries then retryFrom maxRetries run fuel (attempt + 1)
        else respServerError "Internal server error"
      else respServerError "Internal server error"

/-- Run a handler body under the retry loop, starting at attempt 1. -/
def runWithRetry (maxRetries : Nat) (run : Nat → AttemptOutcome) : Response :=
  retryFrom maxRetries run maxRetries 1

/-- `dispatchEvent` with its retry loop (`maxRetries = 3`).  `oracle n = some
t` means the database client fails attempt `n` with an error of transiency
`t`; `oracle n = none` means the attempt's transaction commits and the body's
response is produced. -/
def dispatchEventWithRetry (st : EvState) (items : List DispatchItem)
    (dryRun coldLead : Bool) (oracle : Nat → Option Bool) : Response :=
  runWithRetry 3 (fun n =>
    match oracle n with
    | some t => .err t
    | none => .ok (dispatchEvent st items dryRun coldLead).1)

/-- `returnEvent` with its retry loop (`maxRetries = 3`). -/
def returnEventWithRetry (st : EvState) (items : List ReturnItem)
    (coldLead : Bool) (oracle : Nat → Option Bool) : Response :=
  runWithRetry 3 (fun n =>
    match oracle n with
    | some t => .err t
    | none => .ok (returnEvent st items coldLead).1)

/-- `createInvoice` (either version) has no retry loop: any error thrown by
its single transaction attempt — transient or not — falls to the catch, which
aborts and answers 500 (body message abstracted). -/
def createInvoiceMainWithFailure (ps : List (Nat × Product))
    (items : List InvoiceItem) (finalize : Bool) (failure : Option Bool) :
    Response :=
  match failure with
  | some _ => { status := 500 }
  | none => (createInvoiceMain ps items finalize).1

/-- `updateStock` has no retry loop either: a thrown error other than the
typed insufficient-stock failure answers 500 at once. -/
def updateStockWithFailure (st : StockState) (productId : Nat)
    (kind : StockUpdateKind) (quantity : ℚ) (failure : Option Bool) :
    Response :=
  match failure with
  | some _ => { status := 500 }
  | none => (updateStock st productId kind quantity).1

/-! ## Deletion and foreign keys -/

/-- Generic `findById` over an id-keyed collection. -/
def lookupDoc {α : Type} : List (Nat × α) → Nat → Option α
  | [], _ => none
  | (i, a) :: rest, id => if i = id then some a else lookupDoc rest id

/-- Generic `findByIdAndDelete`: drop the first matching entry. -/
def removeDoc {α : Type} : List (Nat × α) → Nat → List (Nat × α)
  | [], _ => []
  | (i, a) :: rest, id => if i = id then rest else (i, a) :: removeDoc rest id

/-- `deleteEvent` (events.ts, lines 149-160): `findByIdAndDelete`, 404 when
absent, 200 otherwise — no referential check of any kind. -/
def deleteEvent (events : List (Nat × EventDoc)) (id : Nat) :
    Response × List (Nat × EventDoc) :=
  match lookupDoc events id with
  | none => (respNotFound "Event not found", events)
  | some _ => (respOk, removeDoc events id)

/-- A `Client` document (unnamed model file); only its presence matters to
the deletion claims. -/
structure ClientDoc where
  name : String
deriving DecidableEq

/-- Modelled from the spec: the client-deletion route handler is not under
the sources (only its frontend caller is, which maps a 409 to "Cannot delete
client. There are invoices associated with this client.").  Per the spec,
"conflicting foreign keys return 409": deleting a client still referenced by
invoices answers 409 and leaves the collection unchanged. -/
def deleteClient (clients : List (Nat × ClientDoc)) (invoices : List InvoiceDoc)
    (id : Nat) : Response × List (Nat × ClientDoc) :=
  match lookupDoc clients id with
  | none => (respNotFound "Client not found", clients)
  | some _ =>
    if invoices.any (fun inv => inv.clientId = id) then
      ({ status := 409,
         error := some "Cannot delete client. There are invoices associated with this client." },
        clients)
    else (respOk, removeDoc clients id)

/-! ## Helper quantities for the statements -/

/-- Total quantity a dispatch request asks of product `pid`. -/
def qtyRequested (items : List DispatchItem) (pid : Nat) : ℚ :=
  (items.filterMap (fun it =>
    match it.productId with
    | some q => if q = pid then some it.qty else none
    | none => none)).sum

/-- Total quantity a return request brings back for product `pid`. -/
def qtyReturnedFor (items : List ReturnItem) (pid : Nat) : ℚ :=
  (items.filterMap (fun it =>
    match it.productId with
    | some q => if q = pid then some it.returned else none
    | none => none)).sum

/-- The claimed (unrounded) adjustment of one return line:
`shortage * lossPrice + damageAmount + lateFee`. -/
def claimLineTotal (it : ReturnItem) (p : Product) : ℚ :=
  lineShortage it * lineLossPrice it p + it.damageAmount + it.lateFee

/-- The adjustment the code actually accumulates for one return line: the
shortage cost is rounded to cents before summing. -/
def codeLineTotal (it : ReturnItem) (p : Product) : ℚ :=
  round2 (lineShortage it * lineLossPrice it p) + it.damageAmount + it.lateFee

/-- Every non-adjustment item of the request can be satisfied from main stock
alone, checking `product.stockQty ≥ item.qty` at each step of the loop. -/
def mainOnlySufficient (ps : List (Nat × Product)) : List InvoiceItem → Bool
  | [] => true
  | item :: rest =>
    if item.isAdjustment then mainOnlySufficient ps rest
    else
      match findProduct ps item.productId with
      | none => false
      | some p =>
        decide (item.qty ≤ p.stockQty) &&
          mainOnlySufficient
            (setProduct ps item.productId { p with stockQty := p.stockQty - item.qty })
            rest

/-- `x` is a whole number of cents. -/
def centMultiple (x : ℚ) : Prop := ∃ k : ℤ, x = k / 100

/-- `need` is an initial segment of `hay` (on character lists). -/
def leadsWith : List Char → List Char → Bool
  | [], _ => true
  | _ :: _, [] => false
  | c :: cs, d :: ds => c = d && leadsWith cs ds

/-- `need` occurs contiguously somewhere in `hay`. -/
def containsSeq (need : List Char) : List Char → Bool
  | [] => need.isEmpty
  | c :: rest => leadsWith need (c :: rest) || containsSeq need rest

/-- Whether a response body's error string mentions `name` as a substring. -/
def errorMentions (r : Response) (name : String) : Bool :=
  match r.error with
  | none => false
  | some msg => containsSeq name.toList msg.toList

/-- A response body identifies the stock shortage: it carries a shortage
amount or the affected product, either as a structured field or by naming the
product inside its error message. -/
def carriesShortageDetail (r : Response) (pname : String) : Prop :=
  r.shortage.isSome ∨ r.productId.isSome ∨ r.productName.isSome ∨
    errorMentions r pname = true

/-! ## Lemmas about the collection operations -/

theorem findProduct_setProduct_self {ps : List (Nat × Product)} {pid : Nat}
    {p : Product} (h : findProduct ps pid = some p) (q : Product) :
    findProduct (setProduct ps pid q) pid = some q := by
  induction ps with
  | nil => simp [findProduct] at h
  | cons hd tl ih =>
    obtain ⟨i, r⟩ := hd
    by_cases hi : i = pid
    · simp [findProduct, setProduct, hi]
    · simp [findProduct, setProduct, hi] at h ⊢
      exact ih h

theorem findProduct_setProduct_other {ps : List (Nat × Product)} {pid pid' : Nat}
    (h : pid' ≠ pid) (q : Product) :
    findProduct (setProduct ps pid q) pid' = findProduct ps pid' := by
  induction ps with
  | nil => simp [setProduct]
  | cons hd tl ih =>
    obtain ⟨i, r⟩ := hd
    by_cases hi : i = pid
    · subst hi
      simp [findProduct, setProduct, Ne.symm h]
    · simp [findProduct, setProduct, hi]
      split <;> simp_all [findProduct]

theorem stockOf_setProduct_self {ps : List (Nat × Product)} {pid : Nat}
    {p : Product} (h : findProduct ps pid = some p) (q : Product) :
    stockOf (setProduct ps pid q) pid = q.stockQty := by
  simp [stockOf, findProduct_setProduct_self h]

theorem stockOf_setProduct_other {ps : List (Nat × Product)} {pid pid' : Nat}
    (h : pid' ≠ pid) (q : Product) :
    stockOf (setProduct ps pid q) pid' = stockOf ps pid' := by
  simp [stockOf, findProduct_setProduct_other h]

/-! ## Lemmas about the allocator -/

theorem b2bTotal_nonneg {lots : List B2BLot}
    (h : ∀ l ∈ lots, 0 ≤ l.quantityAvailable) : 0 ≤ b2bTotal lots := by
  unfold b2bTotal
  refine List.sum_nonneg ?_
  intro x hx
  obtain ⟨l, hl, rfl⟩ := List.mem_map.mp hx
  exact h l hl

theorem allocateB2B_total {lots : List B2BLot} {need : ℚ}
    (hn : 0 ≤ need) (hle : need ≤ b2bTotal lots)
    (hlots : ∀ l ∈ lots, 0 ≤ l.quantityAvailable) :
    usageTotal (allocateB2B lots need).1 = need := by
  induction lots generalizing need with
  | nil =>
    have : need = 0 := le_antisymm (by simpa [b2bTotal] using hle) hn
    simp [allocateB2B, this, usageTotal]
  | cons lot rest ih =>
    by_cases h0 : need ≤ 0
    · have : need = 0 := le_antisymm h0 hn
      simp [allocateB2B, h0, this, usageTotal]
    · have hqa : 0 ≤ lot.quantityAvailable := hlots lot (by simp)
      have hrest : ∀ l ∈ rest, 0 ≤ l.quantityAvailable := fun l hl => hlots l (by simp [hl])
      have htake : min need lot.quantityAvailable ≤ need := min_le_left _ _
      have hn' : 0 ≤ need - min need lot.quantityAvailable := by linarith
      have hle' : need - min need lot.quantityAvailable ≤ b2bTotal rest := by
        rcases le_total need lot.quantityAvailable with hc | hc
        · have : min need lot.quantityAvailable = need := min_eq_left hc
          rw [this]
          simpa using b2bTotal_nonneg hrest
        · have : min need lot.quantityAvailable = lot.quantityAvailable := min_eq_right hc
          rw [this]
          have : b2bTotal (lot :: rest) = lot.quantityAvailable + b2bTotal rest := by
            simp [b2bTotal]
          linarith [hle, this]
      have := ih hn' hle' hrest
      simp only [allocateB2B, if_neg h0]
      cases hrec : allocateB2B rest (need - min need lot.quantityAvailable) with
      | mk us rest' =>
        simp [usageTotal] at this ⊢
        rw [hrec] at this
        simp [usageTotal] at this
        rw [this]
        ring

theorem allocateB2B_ids (lots : List B2BLot) (need : ℚ) :
    ∃ k, ((allocateB2B lots need).1.map (·.stockId)) =
      (lots.map (·.stockId)).take k := by
  induction lots generalizing need with
  | nil =>
    refine ⟨0, ?_⟩
    by_cases h0 : need ≤ 0 <;> simp [allocateB2B, h0]
  | cons lot rest ih =>
    by_cases h0 : need ≤ 0
    · exact ⟨0, by simp [allocateB2B, h0]⟩
    · obtain ⟨k, hk⟩ := ih (need - min need lot.quantityAvailable)
      refine ⟨k + 1, ?_⟩
      simp only [allocateB2B, if_neg h0]
      cases hrec : allocateB2B rest (need - min need lot.quantityAvailable) with
      | mk us rest' =>
        rw [hrec] at hk
        simpa using hk

/-! ## C1: stock allocation order and the typed insufficient-stock failure -/

theorem consumeProductStock_error_iff (main q : ℚ) (lots : List B2BLot) :
    (∃ e, consumeProductStock main lots q = .error e ∧
      e.code = "INSUFFICIENT_STOCK") ↔ main + b2bTotal lots < q := by
  unfold consumeProductStock
  by_cases h : main + b2bTotal lots < q
  · simp [h]
  · simp only [if_neg h]
    constructor
    · rintro ⟨e, he, -⟩
      cases hrec : allocateB2B lots (q - min main q) with
      | mk us lots' => rw [hrec] at he; simp at he
    · intro hc; exact absurd hc h

theorem consumeProductStock_ok (main q : ℚ) (lots : List B2BLot)
    (hlots : ∀ l ∈ lots, 0 ≤ l.quantityAvailable) (a : Allocation)
    (h : consumeProductStock main lots q = .ok a) :
    a.mainUsed = min main q ∧
    a.mainUsed + usageTotal a.b2bUsages = q ∧
    a.projectedStock = main - min main q ∧
    ∃ k, a.b2bUsages.map (·.stockId) = (lots.map (·.stockId)).take k := by
  unfold consumeProductStock at h
  by_cases hlt : main + b2bTotal lots < q
  · simp [hlt] at h
  · simp only [if_neg hlt] at h
    cases hrec : allocateB2B lots (q - min main q) with
    | mk us lots' =>
      rw [hrec] at h
      simp at h
      subst h
      have hn : 0 ≤ q - min main q := by
        have := min_le_right main q
        linarith
      have hle : q - min main q ≤ b2bTotal lots := by
        rcases le_total main q with hc | hc
        · rw [min_eq_left hc]; linarith [not_lt.mp hlt]
        · rw [min_eq_right hc]
          simpa using b2bTotal_nonneg hlots
      have htot := allocateB2B_total hn hle hlots
      rw [hrec] at htot
      have hids := allocateB2B_ids lots (q - min main q)
      rw [hrec] at hids
      refine ⟨rfl, by simpa using by linarith [htot], rfl, hids⟩

/-- C1: for every stock-consuming operation (invoice finalization in
`createInvoice`, manual stock-out in `updateStock`) requesting quantity `q`,
the allocation consumes from the product's primary `stockQty` first
(`mainUsed = min main q`), then iterates the secondary (B2B) lots in the
order listed until the requirement is met (`mainUsed` plus the B2B usages sum
to `q`, and the usages are drawn from an initial segment of the lot list),
and it raises the typed failure with code `INSUFFICIENT_STOCK` exactly when
primary plus B2B stock together are less than `q` — in which case both
operations answer the insufficiency (`updateStock` and the single-item
finalizing `createInvoice` respond 400 exactly then). -/
theorem dispatch_allocation_consumes_main_then_b2b (main q : ℚ)
    (lots : List B2BLot) (hlots : ∀ l ∈ lots, 0 ≤ l.quantityAvailable) :
    ((∃ e, consumeProductStock main lots q = .error e ∧
        e.code = "INSUFFICIENT_STOCK") ↔ main + b2bTotal lots < q) ∧
    (∀ a, consumeProductStock main lots q = .ok a →
      a.mainUsed = min main q ∧
      a.mainUsed + usageTotal a.b2bUsages = q ∧
      ∃ k, a.b2bUsages.map (·.stockId) = (lots.map (·.stockId)).take k) ∧
    (∀ ps pid p, findProduct ps pid = some p → p.stockQty = main →
      (((updateStock ⟨ps, lots⟩ pid .stockOut q).1.status = 400) ↔
        main + b2bTotal lots < q) ∧
      (((createInvoiceB2B ps lots [⟨pid, q, false⟩] true).1.status = 400) ↔
        main + b2bTotal lots < q)) := by
  refine ⟨consumeProductStock_error_iff main q lots, ?_, ?_⟩
  · intro a ha
    obtain ⟨h1, h2, -, h4⟩ := consumeProductStock_ok main q lots hlots a ha
    exact ⟨h1, h2, h4⟩
  · intro ps pid p hfind hmain
    subst hmain
    constructor
    · unfold updateStock
      rw [hfind]
      cases hc : consumeProductStock p.stockQty lots q with
      | error e =>
        have : p.stockQty + b2bTotal lots < q := by
          rw [← consumeProductStock_error_iff p.stockQty q lots]
          exact ⟨e, hc, by
            unfold consumeProductStock at hc
            by_cases hlt : p.stockQty + b2bTotal lots < q
            · simp [hlt] at hc; simp [← hc]
            · simp only [if_neg hlt] at hc
              cases hrec : allocateB2B lots (q - min p.stockQty q) with
              | mk us lots' => rw [hrec] at hc; simp at hc⟩
        simp [hc, respBad, this]
      | ok a =>
        have : ¬ p.stockQty + b2bTotal lots < q := by
          intro hlt
          unfold consumeProductStock at hc
          simp [hlt] at hc
        simp [hc, respOk, this]
    · unfold createInvoiceB2B processInvoiceB2B
      rw [hfind]
      simp only [if_pos rfl, Bool.false_eq_true, if_false]
      cases hc : consumeProductStock p.stockQty lots q with
      | error e =>
        have : p.stockQty + b2bTotal lots < q := by
          unfold consumeProductStock at hc
          by_cases hlt : p.stockQty + b2bTotal lots < q
          · exact hlt
          · simp only [if_neg hlt] at hc
            cases hrec : allocateB2B lots (q - min p.stockQty q) with
            | mk us lots' => rw [hrec] at hc; simp at hc
        have he : e.code = "INSUFFICIENT_STOCK" := by
          unfold consumeProductStock at hc
          simp [this] at hc
          simp [← hc]
        simp [hc, respStockRequired, this]
      | ok a =>
        have : ¬ p.stockQty + b2bTotal lots < q := by
          intro hlt
          unfold consumeProductStock at hc
          simp [hlt] at hc
        simp [hc, processInvoiceB2B, respCreated, this]

/-- Witness for C1 at `main = 5`, one lot of 3, `q = 7`. -/
theorem dispatch_allocation_consumes_main_then_b2b_witness :
    (∀ l ∈ [B2BLot.mk 1 3], 0 ≤ l.quantityAvailable) ∧
    (((∃ e, consumeProductStock 5 [B2BLot.mk 1 3] 7 = .error e ∧
        e.code = "INSUFFICIENT_STOCK") ↔ (5:ℚ) + b2bTotal [B2BLot.mk 1 3] < 7) ∧
    (∀ a, consumeProductStock 5 [B2BLot.mk 1 3] 7 = .ok a →
      a.mainUsed = min 5 7 ∧
      a.mainUsed + usageTotal a.b2bUsages = 7 ∧
      ∃ k, a.b2bUsages.map (·.stockId) = ([B2BLot.mk 1 3].map (·.stockId)).take k) ∧
    (∀ ps pid p, findProduct ps pid = some p → p.stockQty = 5 →
      (((updateStock ⟨ps, [B2BLot.mk 1 3]⟩ pid .stockOut 7).1.status = 400) ↔
        (5:ℚ) + b2bTotal [B2BLot.mk 1 3] < 7) ∧
      (((createInvoiceB2B ps [B2BLot.mk 1 3] [⟨pid, 7, false⟩] true).1.status = 400) ↔
        (5:ℚ) + b2bTotal [B2BLot.mk 1 3] < 7))) :=
  ⟨by decide, dispatch_allocation_consumes_main_then_b2b 5 7 [B2BLot.mk 1 3] (by decide)⟩

/-! ## Lemmas about the dispatch loop -/

theorem processDispatch_dryRun_products (items : List DispatchItem)
    (ps psf : List (Nat × Product)) (lines : List SelectionItem) (tot : ℚ)
    (h : processDispatch true ps items = .ok (psf, lines, tot)) : psf = ps := by
  induction items generalizing ps psf lines tot with
  | nil => simp [processDispatch] at h; exact h.1.symm
  | cons it rest ih =>
    simp only [processDispatch] at h
    cases hp : it.productId with
    | none => rw [hp] at h; simp at h
    | some pid =>
      rw [hp] at h
      by_cases hq : it.qty ≤ 0
      · simp [hq] at h
      · simp only [if_neg hq] at h
        cases hf : findProduct ps pid with
        | none => rw [hf] at h; simp at h
        | some p =>
          rw [hf] at h
          by_cases hs : p.stockQty < it.qty
          · simp [hs] at h
          · simp only [if_neg hs, if_pos, if_true] at h
            cases hrec : processDispatch true ps rest with
            | error r => simp [hrec] at h
            | ok out =>
              obtain ⟨ps2, lines2, tot2⟩ := out
              simp [hrec] at h
              rw [← h.1]
              exact ih ps ps2 lines2 tot2 hrec

theorem processDispatch_stock (items : List DispatchItem)
    (ps psf : List (Nat × Product)) (lines : List SelectionItem) (tot : ℚ)
    (h : processDispatch false ps items = .ok (psf, lines, tot)) :
    (∀ pid, stockOf psf pid = stockOf ps pid - qtyRequested items pid) ∧
    lines.length = items.length := by
  induction items generalizing ps psf lines tot with
  | nil =>
    simp [processDispatch] at h
    obtain ⟨h1, h2, -⟩ := h
    subst h1
    subst h2
    simp [qtyRequested]
  | cons it rest ih =>
    simp only [processDispatch] at h
    cases hp : it.productId with
    | none => rw [hp] at h; simp at h
    | some pid0 =>
      rw [hp] at h
      by_cases hq : it.qty ≤ 0
      · simp [hq] at h
      · simp only [if_neg hq] at h
        cases hf : findProduct ps pid0 with
        | none => rw [hf] at h; simp at h
        | some p =>
          rw [hf] at h
          by_cases hs : p.stockQty < it.qty
          · simp [hs] at h
          · simp only [if_neg hs] at h
            simp only [Bool.false_eq_true, if_false] at h
            cases hrec : processDispatch false
                (setProduct ps pid0 { p with stockQty := p.stockQty - it.qty }) rest with
            | error r => rw [hrec] at h; simp at h
            | ok out =>
              obtain ⟨ps2, lines2, tot2⟩ := out
              rw [hrec] at h
              simp at h
              obtain ⟨hps, hlines, -⟩ := h
              subst hps
              obtain ⟨hst, hlen⟩ := ih _ ps2 lines2 tot2 hrec
              constructor
              · intro pid
                by_cases hpid : pid = pid0
                · subst hpid
                  rw [hst pid]
                  rw [stockOf_setProduct_self hf]
                  have : stockOf ps pid = p.stockQty := by simp [stockOf, hf]
                  rw [this]
                  simp [qtyRequested, List.filterMap_cons, hp]
                  ring
                · rw [hst pid, stockOf_setProduct_other hpid]
                  have : qtyRequested (it :: rest) pid = qtyRequested rest pid := by
                    simp [qtyRequested, List.filterMap_cons, hp, Ne.symm hpid]
                  rw [this]
              · subst hlines
                simp [hlen]

theorem processDispatch_error_status (dryRun : Bool) (items : List DispatchItem)
    (ps : List (Nat × Product)) (r : Response)
    (h : processDispatch dryRun ps items = .error r) :
    r.status = 400 ∨ r.status = 404 := by
  induction items generalizing ps with
  | nil => simp [processDispatch] at h
  | cons it rest ih =>
    simp only [processDispatch] at h
    split at h
    · injection h with h1
      subst h1
      left; rfl
    · split at h
      · injection h with h1
        subst h1
        left; rfl
      · split at h
        · injection h with h1
          subst h1
          right; rfl
        · split at h
          · injection h with h1
            subst h1
            left; rfl
          · split at h
            · injection h with h1
              subst h1
              rename_i hrec
              exact ih _ hrec
            · simp at h

/-- C3: `dispatchEvent` is atomic: if any item of a (non-dry-run) dispatch
request is invalid, names a missing product, or exceeds that product's
`stockQty`, the whole transaction aborts — the state (products and event,
hence every earlier decrement and any dispatch record) is exactly the
initial one; stock is decremented (by the per-product requested totals) and
a dispatch record appended with status `"dispatched"` only when every item
succeeds. -/
theorem dispatchEvent_atomic (st : EvState) (items : List DispatchItem)
    (coldLead : Bool) (r : Response) (st' : EvState)
    (h : dispatchEvent st items false coldLead = (r, st')) :
    (r.status ≠ 200 → st' = st) ∧
    (r.status = 200 →
      (∀ pid, stockOf st'.products pid = stockOf st.products pid - qtyRequested items pid) ∧
      ∃ ev ev' lines total, st.event = some ev ∧ st'.event = some ev' ∧
        lines.length = items.length ∧
        ev'.dispatches = ev.dispatches ++ [⟨lines, total, false⟩] ∧
        ev'.status = "dispatched") := by
  unfold dispatchEvent at h
  split at h
  · injection h with h1 h2
    subst h1; subst h2
    exact ⟨fun _ => rfl, fun hr => absurd hr (by simp [respBad])⟩
  · split at h
    · injection h with h1 h2
      subst h1; subst h2
      exact ⟨fun _ => rfl, fun hr => absurd hr (by simp [respNotFound])⟩
    · rename_i ev hev
      split at h
      · injection h with h1 h2
        subst h1; subst h2
        exact ⟨fun _ => rfl, fun hr => absurd hr (by simp [respColdLead])⟩
      · split at h
        · rename_i r0 hrec
          injection h with h1 h2
          subst h1; subst h2
          refine ⟨fun _ => rfl, fun hr => ?_⟩
          rcases processDispatch_error_status false items st.products r0 hrec with h4 | h4 <;>
            rw [hr] at h4 <;> exact absurd h4 (by decide)
        · rename_i out ps' lines total hrec
          simp only [Bool.false_eq_true, if_false] at h
          injection h with h1 h2
          subst h1; subst h2
          obtain ⟨hst, hlen⟩ := processDispatch_stock items st.products ps' lines total hrec
          refine ⟨fun hr => absurd (show respOk.status = 200 from rfl) hr, fun _ => ?_⟩
          exact ⟨hst, ev, _, lines, total, hev, rfl, hlen, rfl, rfl⟩

/-- Witness for C3 (one valid item against a product with enough stock). -/
theorem dispatchEvent_atomic_witness :
    (((dispatchEvent ⟨[(1, ⟨"Chair", some 2, some 5, 10⟩)],
        some ⟨"confirmed", [], [], [], []⟩⟩ [⟨some 1, 3, 2⟩] false false).1.status ≠ 200 →
      (dispatchEvent ⟨[(1, ⟨"Chair", some 2, some 5, 10⟩)],
        some ⟨"confirmed", [], [], [], []⟩⟩ [⟨some 1, 3, 2⟩] false false).2 =
        ⟨[(1, ⟨"Chair", some 2, some 5, 10⟩)], some ⟨"confirmed", [], [], [], []⟩⟩) ∧
     ((dispatchEvent ⟨[(1, ⟨"Chair", some 2, some 5, 10⟩)],
        some ⟨"confirmed", [], [], [], []⟩⟩ [⟨some 1, 3, 2⟩] false false).1.status = 200 →
      (∀ pid, stockOf (dispatchEvent ⟨[(1, ⟨"Chair", some 2, some 5, 10⟩)],
          some ⟨"confirmed", [], [], [], []⟩⟩ [⟨some 1, 3, 2⟩] false false).2.products pid =
        stockOf [(1, ⟨"Chair", some 2, some 5, 10⟩)] pid -
          qtyRequested [⟨some 1, 3, 2⟩] pid) ∧
      ∃ ev ev' lines total,
        (some ⟨"confirmed", [], [], [], []⟩ : Option EventDoc) = some ev ∧
        (dispatchEvent ⟨[(1, ⟨"Chair", some 2, some 5, 10⟩)],
          some ⟨"confirmed", [], [], [], []⟩⟩ [⟨some 1, 3, 2⟩] false false).2.event = some ev' ∧
        lines.length = [DispatchItem.mk (some 1) 3 2].length ∧
        ev'.dispatches = ev.dispatches ++ [⟨lines, total, false⟩] ∧
        ev'.status = "dispatched")) :=
  dispatchEvent_atomic ⟨[(1, ⟨"Chair", some 2, some 5, 10⟩)],
    some ⟨"confirmed", [], [], [], []⟩⟩ [⟨some 1, 3, 2⟩] false _ _ rfl

theorem processDispatch_length (dryRun : Bool) (items : List DispatchItem)
    (ps psf : List (Nat × Product)) (lines : List SelectionItem) (tot : ℚ)
    (h : processDispatch dryRun ps items = .ok (psf, lines, tot)) :
    lines.length = items.length := by
  induction items generalizing ps psf lines tot with
  | nil =>
    simp [processDispatch] at h
    rw [h.2.1]
    rfl
  | cons it rest ih =>
    simp only [processDispatch] at h
    split at h
    · simp at h
    · split at h
      · simp at h
      · split at h
        · simp at h
        · split at h
          · simp at h
          · split at h
            · simp at h
            · rename_i out2 ps2 lines2 tot2 hrec
              injection h with h1
              injection h1 with hps h2
              injection h2 with hlines htot
              rw [← hlines]
              simp [ih _ _ _ _ hrec]

/-- C8: a dispatch request with `dryRun` set whose items pass the stock check
leaves every product's stored `stockQty` unchanged, appends the sanitized
items to `event.dispatchDrafts` (with the reserve note) rather than
`event.dispatches`, and sets the event status to `"reserved"` instead of
`"dispatched"`; even on a failing dry run no product is changed. -/
theorem dispatchEvent_dryRun_frame (st : EvState) (items : List DispatchItem)
    (coldLead : Bool) (r : Response) (st' : EvState)
    (h : dispatchEvent st items true coldLead = (r, st')) :
    st'.products = st.products ∧
    (∀ ev', st'.event = some ev' →
      ∃ ev, st.event = some ev ∧ ev'.dispatches = ev.dispatches) ∧
    (r.status = 200 →
      ∃ ev ev' lines total, st.event = some ev ∧ st'.event = some ev' ∧
        lines.length = items.length ∧
        ev'.dispatchDrafts = ev.dispatchDrafts ++ [⟨lines, total, true⟩] ∧
        ev'.dispatches = ev.dispatches ∧ ev'.status = "reserved") := by
  unfold dispatchEvent at h
  split at h
  · injection h with h1 h2
    subst h1; subst h2
    exact ⟨rfl, fun ev' hev' => ⟨ev', hev', rfl⟩,
      fun hr => absurd hr (by simp [respBad])⟩
  · split at h
    · injection h with h1 h2
      subst h1; subst h2
      exact ⟨rfl, fun ev' hev' => ⟨ev', hev', rfl⟩,
        fun hr => absurd hr (by simp [respNotFound])⟩
    · rename_i ev hev
      split at h
      · injection h with h1 h2
        subst h1; subst h2
        exact ⟨rfl, fun ev' hev' => ⟨ev', hev', rfl⟩,
          fun hr => absurd hr (by simp [respColdLead])⟩
      · split at h
        · rename_i r0 hrec
          injection h with h1 h2
          subst h1; subst h2
          refine ⟨rfl, fun ev' hev' => ⟨ev', hev', rfl⟩, fun hr => ?_⟩
          rcases processDispatch_error_status true items st.products r0 hrec with h4 | h4 <;>
            rw [hr] at h4 <;> exact absurd h4 (by decide)
        · rename_i out ps' lines total hrec
          simp only [if_pos rfl, if_true] at h
          injection h with h1 h2
          subst h1; subst h2
          have hps := processDispatch_dryRun_products items st.products ps' lines total hrec
          have hlen := processDispatch_length true items st.products ps' lines total hrec
          refine ⟨hps, ?_, fun _ => ?_⟩
          · intro ev' hev'
            injection hev' with he
            exact ⟨ev, hev, by rw [← he]⟩
          · exact ⟨ev, _, lines, total, hev, rfl, hlen, rfl, rfl, rfl⟩

/-- Witness for C8 (same valid one-item request, dry run). -/
theorem dispatchEvent_dryRun_frame_witness :
    ((dispatchEvent ⟨[(1, ⟨"Chair", some 2, some 5, 10⟩)],
        some ⟨"confirmed", [], [], [], []⟩⟩ [⟨some 1, 3, 2⟩] true false).2.products =
      [(1, ⟨"Chair", some 2, some 5, 10⟩)]) ∧
    (∀ ev', (dispatchEvent ⟨[(1, ⟨"Chair", some 2, some 5, 10⟩)],
        some ⟨"confirmed", [], [], [], []⟩⟩ [⟨some 1, 3, 2⟩] true false).2.event = some ev' →
      ∃ ev, (some ⟨"confirmed", [], [], [], []⟩ : Option EventDoc) = some ev ∧
        ev'.dispatches = ev.dispatches) ∧
    ((dispatchEvent ⟨[(1, ⟨"Chair", some 2, some 5, 10⟩)],
        some ⟨"confirmed", [], [], [], []⟩⟩ [⟨some 1, 3, 2⟩] true false).1.status = 200 →
      ∃ ev ev' lines total,
        (some ⟨"confirmed", [], [], [], []⟩ : Option EventDoc) = some ev ∧
        (dispatchEvent ⟨[(1, ⟨"Chair", some 2, some 5, 10⟩)],
          some ⟨"confirmed", [], [], [], []⟩⟩ [⟨some 1, 3, 2⟩] true false).2.event = some ev' ∧
        lines.length = [DispatchItem.mk (some 1) 3 2].length ∧
        ev'.dispatchDrafts = ev.dispatchDrafts ++ [⟨lines, total, true⟩] ∧
        ev'.dispatches = ev.dispatches ∧ ev'.status = "reserved") :=
  dispatchEvent_dryRun_frame ⟨[(1, ⟨"Chair", some 2, some 5, 10⟩)],
    some ⟨"confirmed", [], [], [], []⟩⟩ [⟨some 1, 3, 2⟩] false _ _ rfl

/-! ## Lemmas about the return loop -/

/-- The loss price the handler resolves for a return item against a product
collection (0 when the product is missing, which cannot happen on success). -/
def lineLossPriceIn (ps : List (Nat × Product)) (it : ReturnItem) : ℚ :=
  match it.productId with
  | none => 0
  | some pid =>
    match findProduct ps pid with
    | none => 0
    | some p => lineLossPrice it p

theorem lineLossPrice_stock_irrelevant (it : ReturnItem) (p : Product) (x : ℚ) :
    lineLossPrice it { p with stockQty := x } = lineLossPrice it p := rfl

theorem lineLossPriceIn_set (ps : List (Nat × Product)) (pid : Nat) (p : Product)
    (x : ℚ) (it : ReturnItem) (hf : findProduct ps pid = some p) :
    lineLossPriceIn (setProduct ps pid { p with stockQty := x }) it =
      lineLossPriceIn ps it := by
  cases hp : it.productId with
  | none => simp [lineLossPriceIn, hp]
  | some pid' =>
    by_cases hpp : pid' = pid
    · subst hpp
      simp [lineLossPriceIn, hp, findProduct_setProduct_self hf, hf, lineLossPrice]
    · simp [lineLossPriceIn, hp, findProduct_setProduct_other hpp]

theorem processReturn_stock (items : List ReturnItem)
    (ps : List (Nat × Product)) (target : List SelectionItem)
    (out : ReturnLoopOut) (h : processReturn ps target items = .ok out) :
    ∀ pid, stockOf out.products pid = stockOf ps pid + qtyReturnedFor items pid := by
  induction items generalizing ps target out with
  | nil =>
    simp [processReturn] at h
    intro pid
    rw [← h]
    simp [qtyReturnedFor]
  | cons it rest ih =>
    simp only [processReturn] at h
    split at h
    · simp at h
    · rename_i pid0 hp
      split at h
      · simp at h
      · rename_i hval
        split at h
        · simp at h
        · rename_i p hf
          split at h
          · simp at h
          · rename_i out2 hrec
            injection h with h1
            subst h1
            intro pid
            have hih := ih _ _ _ hrec pid
            simp only [] at hih ⊢
            rw [hih]
            by_cases hpp : pid = pid0
            · subst hpp
              rw [stockOf_setProduct_self hf]
              have : stockOf ps pid = p.stockQty := by simp [stockOf, hf]
              rw [this]
              have : qtyReturnedFor (it :: rest) pid =
                  it.returned + qtyReturnedFor rest pid := by
                simp [qtyReturnedFor, List.filterMap_cons, hp]
              rw [this]
              ring
            · rw [stockOf_setProduct_other hpp]
              have : qtyReturnedFor (it :: rest) pid = qtyReturnedFor rest pid := by
                simp [qtyReturnedFor, List.filterMap_cons, hp, Ne.symm hpp]
              rw [this]

theorem processReturn_totals (items : List ReturnItem)
    (ps : List (Nat × Product)) (target : List SelectionItem)
    (out : ReturnLoopOut) (h : processReturn ps target items = .ok out) :
    out.totalShortageCost =
      (items.map (fun it => round2 (lineShortage it * lineLossPriceIn ps it))).sum ∧
    out.totalDamage = (items.map (·.damageAmount)).sum ∧
    out.totalLate = (items.map (·.lateFee)).sum ∧
    out.lines.length = items.length := by
  induction items generalizing ps target out with
  | nil =>
    simp [processReturn] at h
    rw [← h]
    simp
  | cons it rest ih =>
    simp only [processReturn] at h
    split at h
    · simp at h
    · rename_i pid0 hp
      split at h
      · simp at h
      · rename_i hval
        split at h
        · simp at h
        · rename_i p hf
          split at h
          · simp at h
          · rename_i out2 hrec
            injection h with h1
            subst h1
            obtain ⟨ht1, ht2, ht3, ht4⟩ := ih _ _ _ hrec
            have hmap : rest.map (fun jt => round2 (lineShortage jt *
                lineLossPriceIn (setProduct ps pid0
                  { p with stockQty := p.stockQty + it.returned }) jt)) =
                rest.map (fun jt => round2 (lineShortage jt * lineLossPriceIn ps jt)) := by
              refine List.map_congr_left ?_
              intro jt _
              rw [lineLossPriceIn_set ps pid0 p _ jt hf]
            have hloss : lineLossPriceIn ps it = lineLossPrice it p := by
              simp [lineLossPriceIn, hp, hf]
            refine ⟨?_, ?_, ?_, ?_⟩
            · simp only [List.map_cons, List.sum_cons, hloss]
              rw [ht1, hmap]
            · simp only [List.map_cons, List.sum_cons]
              rw [ht2]
            · simp only [List.map_cons, List.sum_cons]
              rw [ht3]
            · simp only [List.length_cons]
              simp [ht4]

theorem processReturn_nonneg (items : List ReturnItem)
    (ps : List (Nat × Product)) (target : List SelectionItem)
    (out : ReturnLoopOut) (h : processReturn ps target items = .ok out)
    (hps : ∀ pid, 0 ≤ stockOf ps pid) :
    ∀ pid, 0 ≤ stockOf out.products pid := by
  induction items generalizing ps target out with
  | nil =>
    simp [processReturn] at h
    rw [← h]
    exact hps
  | cons it rest ih =>
    simp only [processReturn] at h
    split at h
    · simp at h
    · rename_i pid0 hp
      split at h
      · simp at h
      · rename_i hval
        split at h
        · simp at h
        · rename_i p hf
          split at h
          · simp at h
          · rename_i out2 hrec
            injection h with h1
            subst h1
            have hret : 0 ≤ it.returned := by
              by_contra hc
              exact hval (Or.inr (Or.inl (by linarith [lt_of_not_le hc])))
            have hstep : ∀ pid, 0 ≤ stockOf (setProduct ps pid0
                { p with stockQty := p.stockQty + it.returned }) pid := by
              intro pid
              by_cases hpp : pid = pid0
              · subst hpp
                rw [stockOf_setProduct_self hf]
                have hsp : stockOf ps pid = p.stockQty := by simp [stockOf, hf]
                have := hps pid
                rw [hsp] at this
                simp only []
                linarith
              · rw [stockOf_setProduct_other hpp]
                exact hps pid
            intro pid
            exact ih _ _ out2 hrec hstep pid

theorem isSome_findProduct_setProduct (ps : List (Nat × Product)) (pid pid' : Nat)
    (q : Product) :
    (findProduct (setProduct ps pid q) pid').isSome = (findProduct ps pid').isSome := by
  induction ps with
  | nil => simp [setProduct]
  | cons hd tl ih =>
    obtain ⟨i, r⟩ := hd
    by_cases hi : i = pid
    · subst hi
      by_cases hp' : i = pid'
      · subst hp'
        simp [findProduct, setProduct]
      · simp [findProduct, setProduct, hp']
    · by_cases hp' : i = pid'
      · subst hp'
        simp [findProduct, setProduct, hi]
      · simp [findProduct, setProduct, hi, hp', ih]

theorem processReturn_success (items : List ReturnItem)
    (ps : List (Nat × Product)) (target : List SelectionItem)
    (hitems : ∀ it ∈ items,
      (∃ pid, it.productId = some pid ∧ (findProduct ps pid).isSome) ∧
      0 ≤ it.expected ∧ 0 ≤ it.returned ∧ 0 ≤ lineShortage it) :
    ∃ out, processReturn ps target items = .ok out := by
  induction items generalizing ps target with
  | nil => exact ⟨_, rfl⟩
  | cons it rest ih =>
    obtain ⟨⟨pid, hp, hsome⟩, hexp, hret, hshort⟩ := hitems it (by simp)
    obtain ⟨p, hf⟩ := Option.isSome_iff_exists.mp hsome
    have hval : ¬ (it.expected < 0 ∨ it.returned < 0 ∨ lineShortage it < 0) := by
      push_neg
      exact ⟨hexp, hret, hshort⟩
    have hrest : ∀ jt ∈ rest,
        (∃ pid', jt.productId = some pid' ∧
          (findProduct (setProduct ps pid { p with stockQty := p.stockQty + it.returned }) pid').isSome) ∧
        0 ≤ jt.expected ∧ 0 ≤ jt.returned ∧ 0 ≤ lineShortage jt := by
      intro jt hjt
      obtain ⟨⟨pid', hp', hsome'⟩, h1, h2, h3⟩ := hitems jt (by simp [hjt])
      exact ⟨⟨pid', hp', by rw [isSome_findProduct_setProduct]; exact hsome'⟩, h1, h2, h3⟩
    obtain ⟨out2, hout2⟩ :=
      ih (setProduct ps pid { p with stockQty := p.stockQty + it.returned })
        (bumpReturned pid it.returned target) hrest
    simp only [processReturn, hp, if_neg hval, hf, hout2]
    exact ⟨_, rfl⟩

theorem consumeProductStock_projected (main q : ℚ) (lots : List B2BLot)
    (a : Allocation) (h : consumeProductStock main lots q = .ok a) :
    a.projectedStock = main - min main q := by
  unfold consumeProductStock at h
  split at h
  · simp at h
  · dsimp only [] at h
    cases hrec : allocateB2B lots (q - min main q) with
    | mk us lots' =>
      rw [hrec] at h
      simp at h
      rw [← h]

theorem processDispatch_nonneg (items : List DispatchItem)
    (ps psf : List (Nat × Product)) (lines : List SelectionItem) (tot : ℚ)
    (h : processDispatch false ps items = .ok (psf, lines, tot))
    (hps : ∀ pid, 0 ≤ stockOf ps pid) :
    ∀ pid, 0 ≤ stockOf psf pid := by
  induction items generalizing ps psf lines tot with
  | nil =>
    simp [processDispatch] at h
    rw [← h.1]
    exact hps
  | cons it rest ih =>
    simp only [processDispatch] at h
    split at h
    · simp at h
    · split at h
      · simp at h
      · rename_i pid0 hp hq
        split at h
        · simp at h
        · rename_i p hf
          split at h
          · simp at h
          · rename_i hs
            simp only [Bool.false_eq_true, if_false] at h
            split at h
            · simp at h
            · rename_i out2 ps2 lines2 tot2 hrec
              injection h with h1
              injection h1 with hps2 h2
              subst hps2
              refine ih _ _ _ _ hrec ?_
              intro pid
              by_cases hpp : pid = pid0
              · subst hpp
                rw [stockOf_setProduct_self hf]
                simp only []
                linarith [not_lt.mp hs]
              · rw [stockOf_setProduct_other hpp]
                exact hps pid

/-! ## C2: return reconciliation -/

set_option maxRecDepth 8000 in
/-- C2 counterexample: one returned-short item with `lossPrice = 0.006`.
The claim says the appended return record's total equals the sum over items
of `shortage * lossPrice + damageAmount + lateFee` (= 0.006 here); the code
rounds the shortage cost to cents (`toFixed(2)`), recording 0.01. -/
theorem returnEvent_total_counterexample :
    (((returnEvent ⟨[(1, ⟨"Chair", some 2, some 5, 10⟩)],
        some ⟨"dispatched", [], [], [], []⟩⟩
        [⟨some 1, 1, 0, none, 0, 0, some (3/500), none⟩] false).2.event).map
      (fun ev => ev.returns.map (·.total)) = some [1/100]) ∧
    ((([⟨some 1, 1, 0, none, 0, 0, some (3/500), none⟩] : List ReturnItem).map
      (fun it => claimLineTotal it (Product.mk "Chair" (some 2) (some 5) 10))).sum
      = 3/500) ∧
    (1/100 : ℚ) ≠ 3/500 := by
  refine ⟨?_, by norm_num [claimLineTotal, lineShortage, lineLossPrice], by norm_num⟩
  norm_num [returnEvent, processReturn, targetItemsOf, findProduct, lineShortage,
    lineLossPrice, bumpReturned, setProduct, round2, replaceLastItems, respOk]

/-- C2 (amended): for every return request on an existing event (cold-lead
guard clear) whose items all name existing products, have `expected ≥ 0` and
`returned ≥ 0`, and whose resolved shortages are ≥ 0, `returnEvent` answers
200, increases each named product's `stockQty` by exactly the returned
quantities for it, and appends a return record whose `total` is the
cent-rounded sum over items of `round2(shortage * lossPrice) + damageAmount
+ lateFee` — where `shortage` defaults to `max(0, expected - returned)` when
not supplied and `lossPrice` defaults to the provided `lossPrice`, else the
product's `buyPrice`, else the item's `rate`, else 0 (`lineShortage` /
`lineLossPriceIn`).  The claim's unrounded total holds only when the
per-line products are exact cent amounts. -/
theorem returnEvent_reconciliation (st : EvState) (items : List ReturnItem)
    (ev : EventDoc) (hev : st.event = some ev)
    (hitems : ∀ it ∈ items,
      (∃ pid, it.productId = some pid ∧ (findProduct st.products pid).isSome) ∧
      0 ≤ it.expected ∧ 0 ≤ it.returned ∧ 0 ≤ lineShortage it) :
    (returnEvent st items false).1.status = 200 ∧
    (∀ pid, stockOf (returnEvent st items false).2.products pid =
      stockOf st.products pid + qtyReturnedFor items pid) ∧
    ∃ ev' rcd, (returnEvent st items false).2.event = some ev' ∧
      ev'.returns = ev.returns ++ [rcd] ∧
      rcd.items.length = items.length ∧
      rcd.total = round2 (
        (items.map (fun it => round2 (lineShortage it * lineLossPriceIn st.products it))).sum +
        (items.map (·.damageAmount)).sum + (items.map (·.lateFee)).sum) := by
  obtain ⟨out, hout⟩ := processReturn_success items st.products (targetItemsOf ev) hitems
  have hstock := processReturn_stock items st.products (targetItemsOf ev) out hout
  obtain ⟨ht1, ht2, ht3, ht4⟩ := processReturn_totals items st.products (targetItemsOf ev) out hout
  simp only [returnEvent, hev, hout, Bool.false_eq_true, if_false]
  refine ⟨rfl, hstock, ?_⟩
  refine ⟨_, ⟨out.lines,
      round2 (out.totalShortageCost + out.totalDamage + out.totalLate),
      (out.lines.map (·.shortage)).sum,
      (out.lines.map (·.damageAmount)).sum,
      (out.lines.map (·.lateFee)).sum⟩, rfl, ?_, ht4, ?_⟩
  · by_cases hd : ev.dispatches.isEmpty <;> simp [hd]
  · show round2 (out.totalShortageCost + out.totalDamage + out.totalLate) = _
    rw [ht1, ht2, ht3]

/-- Witness for C2's amended theorem: two units out, one returned. -/
theorem returnEvent_reconciliation_witness :
    ((returnEvent ⟨[(1, ⟨"Chair", some 2, some 5, 10⟩)],
        some ⟨"dispatched", [], [], [], []⟩⟩
        [⟨some 1, 2, 1, none, 0, 0, none, none⟩] false).1.status = 200) ∧
    (∀ pid, stockOf (returnEvent ⟨[(1, ⟨"Chair", some 2, some 5, 10⟩)],
        some ⟨"dispatched", [], [], [], []⟩⟩
        [⟨some 1, 2, 1, none, 0, 0, none, none⟩] false).2.products pid =
      stockOf [(1, ⟨"Chair", some 2, some 5, 10⟩)] pid +
        qtyReturnedFor [⟨some 1, 2, 1, none, 0, 0, none, none⟩] pid) ∧
    ∃ ev' rcd, (returnEvent ⟨[(1, ⟨"Chair", some 2, some 5, 10⟩)],
        some ⟨"dispatched", [], [], [], []⟩⟩
        [⟨some 1, 2, 1, none, 0, 0, none, none⟩] false).2.event = some ev' ∧
      ev'.returns = ([] : List ReturnRecord) ++ [rcd] ∧
      rcd.items.length = [ReturnItem.mk (some 1) 2 1 none 0 0 none none].length ∧
      rcd.total = round2 (
        (([⟨some 1, 2, 1, none, 0, 0, none, none⟩] : List ReturnItem).map
          (fun it => round2 (lineShortage it *
            lineLossPriceIn [(1, ⟨"Chair", some 2, some 5, 10⟩)] it))).sum +
        (([⟨some 1, 2, 1, none, 0, 0, none, none⟩] : List ReturnItem).map
          (·.damageAmount)).sum +
        (([⟨some 1, 2, 1, none, 0, 0, none, none⟩] : List ReturnItem).map
          (·.lateFee)).sum) :=
  returnEvent_reconciliation ⟨[(1, ⟨"Chair", some 2, some 5, 10⟩)],
    some ⟨"dispatched", [], [], [], []⟩⟩
    [⟨some 1, 2, 1, none, 0, 0, none, none⟩] ⟨"dispatched", [], [], [], []⟩
    rfl (by
      intro it hit
      simp only [List.mem_singleton] at hit
      subst hit
      exact ⟨⟨1, rfl, by simp [findProduct]⟩, by norm_num, by norm_num,
        by norm_num [lineShortage]⟩)

/-! ## C6: the non-negative stock invariant -/

/-- C6: each of the stock-touching event/stock operations preserves the
invariant that every product's `stockQty` is non-negative: `dispatchEvent`
decrements only after checking `stockQty ≥ qty` (and a dry run changes
nothing), `returnEvent` only adds a validated non-negative returned
quantity, and `updateStock`'s in/out/adjustment paths work from the
validated non-negative `quantity` (the out path consumes at most the
available primary stock). -/
theorem stock_nonneg_invariant :
    (∀ st items dryRun coldLead r st',
      dispatchEvent st items dryRun coldLead = (r, st') →
      (∀ pid, 0 ≤ stockOf st.products pid) →
      ∀ pid, 0 ≤ stockOf st'.products pid) ∧
    (∀ st items coldLead r st',
      returnEvent st items coldLead = (r, st') →
      (∀ pid, 0 ≤ stockOf st.products pid) →
      ∀ pid, 0 ≤ stockOf st'.products pid) ∧
    (∀ st pid kind q r st',
      updateStock st pid kind q = (r, st') → 0 ≤ q →
      (∀ pid', 0 ≤ stockOf st.products pid') →
      ∀ pid', 0 ≤ stockOf st'.products pid') := by
  refine ⟨?_, ?_, ?_⟩
  · intro st items dryRun coldLead r st' h hps
    cases dryRun with
    | true =>
      unfold dispatchEvent at h
      split at h
      · injection h with h1 h2; subst h2; exact hps
      · split at h
        · injection h with h1 h2; subst h2; exact hps
        · split at h
          · injection h with h1 h2; subst h2; exact hps
          · split at h
            · injection h with h1 h2; subst h2; exact hps
            · rename_i out ps' lines total hrec
              simp only [if_pos rfl, if_true] at h
              injection h with h1 h2
              subst h2
              have := processDispatch_dryRun_products items st.products ps' lines total hrec
              simp only [this]
              exact hps
    | false =>
      unfold dispatchEvent at h
      split at h
      · injection h with h1 h2; subst h2; exact hps
      · split at h
        · injection h with h1 h2; subst h2; exact hps
        · split at h
          · injection h with h1 h2; subst h2; exact hps
          · split at h
            · injection h with h1 h2; subst h2; exact hps
            · rename_i out ps' lines total hrec
              simp only [Bool.false_eq_true, if_false] at h
              injection h with h1 h2
              subst h2
              exact processDispatch_nonneg items st.products ps' lines total hrec hps
  · intro st items coldLead r st' h hps
    unfold returnEvent at h
    split at h
    · injection h with h1 h2; subst h2; exact hps
    · split at h
      · injection h with h1 h2; subst h2; exact hps
      · split at h
        · injection h with h1 h2; subst h2; exact hps
        · rename_i out hrec
          injection h with h1 h2
          subst h2
          exact processReturn_nonneg items st.products _ out hrec hps
  · intro st pid kind q r st' h hq hps
    unfold updateStock at h
    split at h
    · injection h with h1 h2; subst h2; exact hps
    · rename_i p hf
      cases kind with
      | stockIn =>
        simp only [] at h
        injection h with h1 h2
        subst h2
        intro pid'
        by_cases hpp : pid' = pid
        · subst hpp
          rw [stockOf_setProduct_self hf]
          have hsp : stockOf st.products pid' = p.stockQty := by simp [stockOf, hf]
          have := hps pid'
          rw [hsp] at this
          simp only []
          linarith
        · rw [stockOf_setProduct_other hpp]
          exact hps pid'
      | stockOut =>
        simp only [] at h
        split at h
        · injection h with h1 h2; subst h2; exact hps
        · rename_i alloc hc
          injection h with h1 h2
          subst h2
          intro pid'
          by_cases hpp : pid' = pid
          · subst hpp
            rw [stockOf_setProduct_self hf]
            have hproj := consumeProductStock_projected p.stockQty q st.lots alloc hc
            have hsp : stockOf st.products pid' = p.stockQty := by simp [stockOf, hf]
            have h0 := hps pid'
            rw [hsp] at h0
            simp only [hproj]
            have := min_le_left p.stockQty q
            linarith
          · rw [stockOf_setProduct_other hpp]
            exact hps pid'
      | adjustment =>
        simp only [] at h
        injection h with h1 h2
        subst h2
        intro pid'
        by_cases hpp : pid' = pid
        · subst hpp
          rw [stockOf_setProduct_self hf]
          exact hq
        · rw [stockOf_setProduct_other hpp]
          exact hps pid'

/-- Witness for C6 at a one-product state. -/
theorem stock_nonneg_invariant_witness :
    (dispatchEvent ⟨[(1, ⟨"Chair", some 2, some 5, 10⟩)],
        some ⟨"confirmed", [], [], [], []⟩⟩ [⟨some 1, 3, 2⟩] false false =
      ((dispatchEvent ⟨[(1, ⟨"Chair", some 2, some 5, 10⟩)],
        some ⟨"confirmed", [], [], [], []⟩⟩ [⟨some 1, 3, 2⟩] false false).1,
       (dispatchEvent ⟨[(1, ⟨"Chair", some 2, some 5, 10⟩)],
        some ⟨"confirmed", [], [], [], []⟩⟩ [⟨some 1, 3, 2⟩] false false).2)) ∧
    (∀ pid, 0 ≤ stockOf [(1, Product.mk "Chair" (some 2) (some 5) 10)] pid) ∧
    (∀ pid, 0 ≤ stockOf (dispatchEvent ⟨[(1, ⟨"Chair", some 2, some 5, 10⟩)],
        some ⟨"confirmed", [], [], [], []⟩⟩ [⟨some 1, 3, 2⟩] false false).2.products pid) :=
  ⟨rfl,
   fun pid => by
     unfold stockOf findProduct
     split <;> rename_i hsp
     · split at hsp
       · injection hsp with he; rw [← he]; norm_num
       · simp [findProduct] at hsp
     · norm_num,
   stock_nonneg_invariant.1 ⟨[(1, ⟨"Chair", some 2, some 5, 10⟩)],
     some ⟨"confirmed", [], [], [], []⟩⟩ [⟨some 1, 3, 2⟩] false false _ _ rfl
     (fun pid => by
       unfold stockOf findProduct
       split <;> rename_i hsp
       · split at hsp
         · injection hsp with he; rw [← he]; norm_num
         · simp [findProduct] at hsp
       · norm_num)⟩

/-! ## C4: insufficient-stock responses -/

theorem leadsWith_refl (l : List Char) : leadsWith l l = true := by
  induction l with
  | nil => rfl
  | cons c cs ih => simp [leadsWith, ih]

theorem containsSeq_append_self (pre need : List Char) :
    containsSeq need (pre ++ need) = true := by
  induction pre with
  | nil =>
    cases need with
    | nil => rfl
    | cons c cs => simp [containsSeq, leadsWith_refl]
  | cons d pre ih => simp [containsSeq, ih]

theorem errorMentions_append (pre name : String) :
    errorMentions (respBad (pre ++ name)) name = true := by
  simp only [errorMentions, respBad, String.toList]
  rw [String.data_append]
  exact containsSeq_append_self pre.data name.data

/-- C4 counterexample: a manual stock-out (`updateStock`, type `"out"`) that
fails for insufficient stock answers 400 with the fixed body
`{ error: "Insufficient stock for this operation" }`: it carries neither a
shortage amount nor the affected product (two different shortages even get
the identical body), contradicting the claim for this endpoint. -/
theorem updateStock_no_shortage_detail_counterexample :
    ((updateStock ⟨[(1, ⟨"Chair", some 2, some 5, 1⟩)], []⟩ 1 .stockOut 5).1.status
      = 400) ∧
    ¬ carriesShortageDetail
      (updateStock ⟨[(1, ⟨"Chair", some 2, some 5, 1⟩)], []⟩ 1 .stockOut 5).1
      "Chair" ∧
    (updateStock ⟨[(1, ⟨"Chair", some 2, some 5, 1⟩)], []⟩ 1 .stockOut 5).1 =
      (updateStock ⟨[(2, ⟨"Tent", some 9, some 20, 0⟩)], []⟩ 2 .stockOut 7).1 := by
  have h1 : (updateStock ⟨[(1, ⟨"Chair", some 2, some 5, 1⟩)], []⟩ 1 .stockOut 5).1 =
      respBad "Insufficient stock for this operation" := by
    norm_num [updateStock, findProduct, consumeProductStock, b2bTotal]
  have h2 : (updateStock ⟨[(2, ⟨"Tent", some 9, some 20, 0⟩)], []⟩ 2 .stockOut 7).1 =
      respBad "Insufficient stock for this operation" := by
    norm_num [updateStock, findProduct, consumeProductStock, b2bTotal]
  refine ⟨by rw [h1]; rfl, ?_, by rw [h1, h2]⟩
  rw [h1]
  simp only [carriesShortageDetail, respBad, errorMentions]
  decide

/-- C4 (amended): whenever a stock-consuming endpoint fails for insufficient
stock inside its transaction the response status is 400; `dispatchEvent`
names the affected product inside its error message, `createInvoice` and
`updateInvoice` (B2B-fallback versions, on finalization) carry the
productId/productName and the shortage amount as body fields, but
`updateStock` answers the fixed message "Insufficient stock for this
operation" with no shortage detail. -/
theorem insufficient_stock_responses (ps : List (Nat × Product))
    (lots : List B2BLot) (pid : Nat) (p : Product) (q rate : ℚ) (ev : EventDoc)
    (hf : findProduct ps pid = some p) (hq : 0 < q) :
    (p.stockQty < q →
      (dispatchEvent ⟨ps, some ev⟩ [⟨some pid, q, rate⟩] false false).1 =
        respBad ("Insufficient stock for product " ++ p.name) ∧
      (dispatchEvent ⟨ps, some ev⟩ [⟨some pid, q, rate⟩] false false).1.status = 400 ∧
      carriesShortageDetail
        (dispatchEvent ⟨ps, some ev⟩ [⟨some pid, q, rate⟩] false false).1 p.name) ∧
    (p.stockQty + b2bTotal lots < q →
      ((createInvoiceB2B ps lots [⟨pid, q, false⟩] true).1 =
        respStockRequired pid p.name ⟨"INSUFFICIENT_STOCK", q, p.stockQty, b2bTotal lots⟩ ∧
       (createInvoiceB2B ps lots [⟨pid, q, false⟩] true).1.status = 400 ∧
       carriesShortageDetail (createInvoiceB2B ps lots [⟨pid, q, false⟩] true).1 p.name) ∧
      (∀ cid eid prev,
        (updateInvoiceB2B ps lots (some ⟨cid, eid, "draft", prev⟩) cid "final"
          [⟨pid, q, false⟩]).1 =
          respStockRequired pid p.name ⟨"INSUFFICIENT_STOCK", q, p.stockQty, b2bTotal lots⟩ ∧
        (updateInvoiceB2B ps lots (some ⟨cid, eid, "draft", prev⟩) cid "final"
          [⟨pid, q, false⟩]).1.status = 400) ∧
      ((updateStock ⟨ps, lots⟩ pid .stockOut q).1 =
        respBad "Insufficient stock for this operation" ∧
       (updateStock ⟨ps, lots⟩ pid .stockOut q).1.status = 400)) := by
  constructor
  · intro hs
    have hcons : consumeProductStock p.stockQty lots q = consumeProductStock p.stockQty lots q := rfl
    have hresp : (dispatchEvent ⟨ps, some ev⟩ [⟨some pid, q, rate⟩] false false).1 =
        respBad ("Insufficient stock for product " ++ p.name) := by
      unfold dispatchEvent
      simp only [List.isEmpty_cons, Bool.false_eq_true, if_false]
      simp only [processDispatch, hf, not_le.mpr hq, if_neg (not_le.mpr hq).elim]
      simp only [if_neg (not_le_of_lt hq), if_pos hs]
      rfl
    refine ⟨hresp, by rw [hresp]; rfl, ?_⟩
    rw [hresp]
    exact Or.inr (Or.inr (Or.inr (errorMentions_append "Insufficient stock for product " p.name)))
  · intro hs
    have hcons : consumeProductStock p.stockQty lots q =
        .error ⟨"INSUFFICIENT_STOCK", q, p.stockQty, b2bTotal lots⟩ := by
      unfold consumeProductStock
      rw [if_pos hs]
    refine ⟨⟨?_, ?_, ?_⟩, ?_, ?_, ?_⟩
    · simp [createInvoiceB2B, processInvoiceB2B, hf, hcons]
    · simp [createInvoiceB2B, processInvoiceB2B, hf, hcons, respStockRequired]
    · simp [createInvoiceB2B, processInvoiceB2B, hf, hcons, carriesShortageDetail,
        respStockRequired]
    · intro cid eid prev
      constructor
      · simp [updateInvoiceB2B, processInvoiceB2B, hf, hcons]
      · simp [updateInvoiceB2B, processInvoiceB2B, hf, hcons, respStockRequired]
    · simp [updateStock, hf, hcons]
    · simp [updateStock, hf, hcons, respBad]

/-- Witness for C4 at a one-product state with empty B2B lots. -/
theorem insufficient_stock_responses_witness :
    (findProduct [(1, ⟨"Chair", some 2, some 5, 1⟩)] 1 =
      some (Product.mk "Chair" (some 2) (some 5) 1)) ∧ (0:ℚ) < 5 ∧
    (((Product.mk "Chair" (some 2) (some 5) 1).stockQty < 5 →
      (dispatchEvent ⟨[(1, ⟨"Chair", some 2, some 5, 1⟩)],
        some ⟨"confirmed", [], [], [], []⟩⟩ [⟨some 1, 5, 0⟩] false false).1 =
        respBad ("Insufficient stock for product " ++ (Product.mk "Chair" (some 2) (some 5) 1).name) ∧
      (dispatchEvent ⟨[(1, ⟨"Chair", some 2, some 5, 1⟩)],
        some ⟨"confirmed", [], [], [], []⟩⟩ [⟨some 1, 5, 0⟩] false false).1.status = 400 ∧
      carriesShortageDetail
        (dispatchEvent ⟨[(1, ⟨"Chair", some 2, some 5, 1⟩)],
          some ⟨"confirmed", [], [], [], []⟩⟩ [⟨some 1, 5, 0⟩] false false).1
        (Product.mk "Chair" (some 2) (some 5) 1).name) ∧
    ((Product.mk "Chair" (some 2) (some 5) 1).stockQty + b2bTotal [] < 5 →
      (((createInvoiceB2B [(1, ⟨"Chair", some 2, some 5, 1⟩)] [] [⟨1, 5, false⟩] true).1 =
        respStockRequired 1 (Product.mk "Chair" (some 2) (some 5) 1).name
          ⟨"INSUFFICIENT_STOCK", 5, (Product.mk "Chair" (some 2) (some 5) 1).stockQty, b2bTotal []⟩ ∧
       (createInvoiceB2B [(1, ⟨"Chair", some 2, some 5, 1⟩)] [] [⟨1, 5, false⟩] true).1.status = 400 ∧
       carriesShortageDetail
         (createInvoiceB2B [(1, ⟨"Chair", some 2, some 5, 1⟩)] [] [⟨1, 5, false⟩] true).1
         (Product.mk "Chair" (some 2) (some 5) 1).name) ∧
      (∀ cid eid prev,
        (updateInvoiceB2B [(1, ⟨"Chair", some 2, some 5, 1⟩)] [] (some ⟨cid, eid, "draft", prev⟩)
          cid "final" [⟨1, 5, false⟩]).1 =
          respStockRequired 1 (Product.mk "Chair" (some 2) (some 5) 1).name
            ⟨"INSUFFICIENT_STOCK", 5, (Product.mk "Chair" (some 2) (some 5) 1).stockQty, b2bTotal []⟩ ∧
        (updateInvoiceB2B [(1, ⟨"Chair", some 2, some 5, 1⟩)] [] (some ⟨cid, eid, "draft", prev⟩)
          cid "final" [⟨1, 5, false⟩]).1.status = 400) ∧
      ((updateStock ⟨[(1, ⟨"Chair", some 2, some 5, 1⟩)], []⟩ 1 .stockOut 5).1 =
        respBad "Insufficient stock for this operation" ∧
       (updateStock ⟨[(1, ⟨"Chair", some 2, some 5, 1⟩)], []⟩ 1 .stockOut 5).1.status = 400)))) :=
  ⟨rfl, by norm_num,
    insufficient_stock_responses [(1, ⟨"Chair", some 2, some 5, 1⟩)] [] 1
      (Product.mk "Chair" (some 2) (some 5) 1) 5 0 ⟨"confirmed", [], [], [], []⟩
      rfl (by norm_num)⟩

/-! ## C5: bounded retry on transient transaction errors -/

theorem runWithRetry3_all_transient (run : Nat → AttemptOutcome)
    (h : ∀ n, 1 ≤ n → n ≤ 3 → run n = .err true) :
    runWithRetry 3 run = respServerError "Internal server error" := by
  have h1 := h 1 (by norm_num) (by norm_num)
  have h2 := h 2 (by norm_num) (by norm_num)
  have h3 := h 3 (by norm_num) (by norm_num)
  simp [runWithRetry, retryFrom, h1, h2, h3]

theorem runWithRetry3_nontransient (run : Nat → AttemptOutcome)
    (h : run 1 = .err false) :
    runWithRetry 3 run = respServerError "Internal server error" := by
  simp [runWithRetry, retryFrom, h]

theorem runWithRetry3_congr (run run' : Nat → AttemptOutcome)
    (h : ∀ n, 1 ≤ n → n ≤ 3 → run n = run' n) :
    runWithRetry 3 run = runWithRetry 3 run' := by
  have e1 := h 1 (by norm_num) (by norm_num)
  have e2 := h 2 (by norm_num) (by norm_num)
  have e3 := h 3 (by norm_num) (by norm_num)
  simp only [runWithRetry, retryFrom, e1, e2, e3]

theorem runWithRetry3_recover (run : Nat → AttemptOutcome) (r : Response)
    (h1 : run 1 = .err true) (h2 : run 2 = .ok r) :
    runWithRetry 3 run = r := by
  simp [runWithRetry, retryFrom, h1, h2]

/-- C5: transient transaction errors (`TransientTransactionError` label or
`WriteConflict`) are retried with a fixed `maxRetries = 3` attempt budget and
only by the dispatch and return endpoints: three transient failures — or any
non-transient failure, at once and without retry — surface as 500; a success
within the budget passes the body's response through; attempts beyond the
third are never consulted.  `createInvoice` and `updateStock` have no retry
loop: a single injected failure of either transiency is a 500 immediately. -/
theorem transient_retry_policy :
    (∀ st items dryRun coldLead oracle,
      (∀ n, 1 ≤ n → n ≤ 3 → oracle n = some true) →
      dispatchEventWithRetry st items dryRun coldLead oracle =
        respServerError "Internal server error") ∧
    (∀ st items coldLead oracle,
      (∀ n, 1 ≤ n → n ≤ 3 → oracle n = some true) →
      returnEventWithRetry st items coldLead oracle =
        respServerError "Internal server error") ∧
    (∀ st items dryRun coldLead oracle, oracle 1 = some false →
      dispatchEventWithRetry st items dryRun coldLead oracle =
        respServerError "Internal server error") ∧
    (∀ st items coldLead oracle, oracle 1 = some false →
      returnEventWithRetry st items coldLead oracle =
        respServerError "Internal server error") ∧
    (∀ st items dryRun coldLead oracle oracle',
      (∀ n, 1 ≤ n → n ≤ 3 → oracle n = oracle' n) →
      dispatchEventWithRetry st items dryRun coldLead oracle =
        dispatchEventWithRetry st items dryRun coldLead oracle') ∧
    (∀ st items dryRun coldLead oracle, oracle 1 = some true → oracle 2 = none →
      dispatchEventWithRetry st items dryRun coldLead oracle =
        (dispatchEvent st items dryRun coldLead).1) ∧
    (∀ ps items finalize t,
      createInvoiceMainWithFailure ps items finalize (some t) =
        { status := 500 }) ∧
    (∀ st pid kind q t,
      updateStockWithFailure st pid kind q (some t) = { status := 500 }) := by
  refine ⟨?_, ?_, ?_, ?_, ?_, ?_, fun _ _ _ _ => rfl, fun _ _ _ _ _ => rfl⟩
  · intro st items dryRun coldLead oracle h
    exact runWithRetry3_all_transient _ (fun n h1 h3 => by simp [h n h1 h3])
  · intro st items coldLead oracle h
    exact runWithRetry3_all_transient _ (fun n h1 h3 => by simp [h n h1 h3])
  · intro st items dryRun coldLead oracle h
    exact runWithRetry3_nontransient _ (by simp [h])
  · intro st items coldLead oracle h
    exact runWithRetry3_nontransient _ (by simp [h])
  · intro st items dryRun coldLead oracle oracle' h
    exact runWithRetry3_congr _ _ (fun n h1 h3 => by simp [h n h1 h3])
  · intro st items dryRun coldLead oracle h1 h2
    exact runWithRetry3_recover _ _ (by simp [h1]) (by simp [h2])

/-- Witness for C5: an always-transient oracle and a transient-then-commit
oracle at a concrete state. -/
theorem transient_retry_policy_witness :
    (dispatchEventWithRetry ⟨[], none⟩ [] false false (fun _ => some true) =
      respServerError "Internal server error") ∧
    (returnEventWithRetry ⟨[], none⟩ [] false (fun _ => some true) =
      respServerError "Internal server error") ∧
    (dispatchEventWithRetry ⟨[], none⟩ [] false false (fun _ => some false) =
      respServerError "Internal server error") ∧
    (dispatchEventWithRetry ⟨[], none⟩ [] false false
        (fun n => if n = 1 then some true else none) =
      (dispatchEvent ⟨[], none⟩ [] false false).1) ∧
    (createInvoiceMainWithFailure [] [] true true = { status := 500 }) ∧
    (updateStockWithFailure ⟨[], []⟩ 1 .stockOut 1 (some false) =
      { status := 500 }) :=
  ⟨transient_retry_policy.1 ⟨[], none⟩ [] false false _ (fun _ _ _ => rfl),
   transient_retry_policy.2.1 ⟨[], none⟩ [] false _ (fun _ _ _ => rfl),
   transient_retry_policy.2.2.1 ⟨[], none⟩ [] false false _ rfl,
   transient_retry_policy.2.2.2.2.2.1 ⟨[], none⟩ [] false false _ rfl rfl,
   transient_retry_policy.2.2.2.2.2.2.1 [] [] true true,
   transient_retry_policy.2.2.2.2.2.2.2 ⟨[], []⟩ 1 .stockOut 1 false⟩

/-! ## C7: foreign-key conflicts and 409 -/

/-- C7: a request that fails because of a conflicting foreign-key reference
answers 409: deleting an existing client still referenced by invoices
answers 409 and leaves the collection unchanged (`deleteClient` is modelled
from the spec; the in-repo frontend maps exactly this 409 to its
"invoices associated" message).  The in-repo `deleteEvent` and
`deleteInvoice` perform no referential check at all — they only ever answer
200 or 404 — so no foreign-key failure (and hence no obligation) arises
there. -/
theorem foreign_key_conflict_responses :
    (∀ clients invoices id,
      (lookupDoc clients id).isSome →
      (∃ inv ∈ invoices, InvoiceDoc.clientId inv = id) →
      (deleteClient clients invoices id).1.status = 409 ∧
      (deleteClient clients invoices id).2 = clients) ∧
    (∀ events id, (deleteEvent events id).1.status = 200 ∨
      (deleteEvent events id).1.status = 404) ∧
    (∀ ps lots inv, (deleteInvoice ps lots inv).1.status = 200 ∨
      (deleteInvoice ps lots inv).1.status = 404) := by
  refine ⟨?_, ?_, ?_⟩
  · intro clients invoices id hsome href
    obtain ⟨c, hc⟩ := Option.isSome_iff_exists.mp hsome
    have hany : invoices.any (fun inv => inv.clientId = id) = true := by
      obtain ⟨inv, hmem, hinv⟩ := href
      exact List.any_eq_true.mpr ⟨inv, hmem, by simp [hinv]⟩
    unfold deleteClient
    rw [hc]
    simp only [hany, if_true]
    exact ⟨trivial, trivial⟩
  · intro events id
    unfold deleteEvent
    cases h : lookupDoc events id with
    | none => right; rfl
    | some ev => left; rfl
  · intro ps lots inv
    unfold deleteInvoice
    cases inv with
    | none => right; rfl
    | some i =>
      by_cases hfin : i.status = "final"
      · left; simp [hfin]; rfl
      · left; simp [hfin]; rfl

/-- Witness for C7: one client referenced by one invoice; one event and one
final invoice for the unconditional-deletion clauses. -/
theorem foreign_key_conflict_responses_witness :
    ((lookupDoc [(7, ClientDoc.mk "Asha")] 7).isSome = true) ∧
    (∃ inv ∈ [InvoiceDoc.mk 7 none "final" []], InvoiceDoc.clientId inv = 7) ∧
    ((deleteClient [(7, ClientDoc.mk "Asha")] [InvoiceDoc.mk 7 none "final" []] 7).1.status
      = 409 ∧
     (deleteClient [(7, ClientDoc.mk "Asha")] [InvoiceDoc.mk 7 none "final" []] 7).2 =
      [(7, ClientDoc.mk "Asha")]) ∧
    ((deleteEvent [(3, EventDoc.mk "confirmed" [] [] [] [])] 3).1.status = 200 ∨
     (deleteEvent [(3, EventDoc.mk "confirmed" [] [] [] [])] 3).1.status = 404) ∧
    ((deleteInvoice [] [] (some (InvoiceDoc.mk 7 none "final" []))).1.status = 200 ∨
     (deleteInvoice [] [] (some (InvoiceDoc.mk 7 none "final" []))).1.status = 404) :=
  ⟨rfl, ⟨InvoiceDoc.mk 7 none "final" [], by simp, rfl⟩,
   foreign_key_conflict_responses.1 [(7, ClientDoc.mk "Asha")]
     [InvoiceDoc.mk 7 none "final" []] 7 (by simp [lookupDoc])
     ⟨InvoiceDoc.mk 7 none "final" [], by simp, rfl⟩,
   foreign_key_conflict_responses.2.1 [(3, EventDoc.mk "confirmed" [] [] [] [])] 3,
   foreign_key_conflict_responses.2.2 [] [] (some (InvoiceDoc.mk 7 none "final" []))⟩

/-! ## C9: the two createInvoice implementations agree on main-stock-only requests -/

theorem allocateB2B_zero (lots : List B2BLot) : allocateB2B lots 0 = ([], lots) := by
  cases lots <;> simp [allocateB2B]

theorem processInvoice_equiv (items : List InvoiceItem)
    (ps : List (Nat × Product)) (lots : List B2BLot)
    (hsuff : mainOnlySufficient ps items = true)
    (hlots : ∀ l ∈ lots, 0 ≤ l.quantityAvailable) :
    ∃ ps', processInvoiceMain ps items = .ok ps' ∧
      ∃ out, processInvoiceB2B ps lots items = .ok out ∧
        out.products = ps' ∧ out.lots = lots ∧
        ∀ si ∈ out.items, si.b2bAllocations = [] := by
  induction items generalizing ps with
  | nil =>
    exact ⟨ps, rfl, ⟨ps, lots, []⟩, rfl, rfl, rfl, by simp⟩
  | cons item rest ih =>
    by_cases hadj : item.isAdjustment
    · simp only [mainOnlySufficient, if_pos hadj] at hsuff
      obtain ⟨ps', hmain, out, hb2b, hop, hol, halloc⟩ := ih ps hsuff
      refine ⟨ps', ?_, ⟨out.products, out.lots,
        ⟨item.productId, item.qty, true, []⟩ :: out.items⟩, ?_, hop, hol, ?_⟩
      · simp only [processInvoiceMain, if_pos hadj]
        exact hmain
      · simp only [processInvoiceB2B, if_pos hadj, hb2b]
      · intro si hsi
        rcases List.mem_cons.mp hsi with h | h
        · rw [h]
        · exact halloc si h
    · simp only [mainOnlySufficient, if_neg hadj] at hsuff
      cases hf : findProduct ps item.productId with
      | none => rw [hf] at hsuff; simp at hsuff
      | some p =>
        rw [hf] at hsuff
        simp only [Bool.and_eq_true, decide_eq_true_eq] at hsuff
        obtain ⟨hle, hsuff'⟩ := hsuff
        have hnlt : ¬ p.stockQty < item.qty := not_lt.mpr hle
        have hcons : consumeProductStock p.stockQty lots item.qty =
            .ok ⟨item.qty, [], p.stockQty - item.qty, lots⟩ := by
          unfold consumeProductStock
          have hnb : ¬ p.stockQty + b2bTotal lots < item.qty := by
            have := b2bTotal_nonneg hlots
            push_neg
            linarith
          rw [if_neg hnb]
          have hmin : min p.stockQty item.qty = item.qty := min_eq_right hle
          rw [hmin]
          dsimp only []
          have hz : item.qty - item.qty = 0 := by ring
          rw [hz, allocateB2B_zero]
        obtain ⟨ps', hmain, out, hb2b, hop, hol, halloc⟩ :=
          ih (setProduct ps item.productId { p with stockQty := p.stockQty - item.qty }) hsuff'
        refine ⟨ps', ?_, ⟨out.products, out.lots,
          ⟨item.productId, item.qty, false, []⟩ :: out.items⟩, ?_, hop, hol, ?_⟩
        · simp only [processInvoiceMain, if_neg hadj, hf, if_neg hnlt]
          exact hmain
        · simp only [processInvoiceB2B, if_neg hadj, hf, hcons]
          rw [hb2b]
        · intro si hsi
          rcases List.mem_cons.mp hsi with h | h
          · rw [h]
          · exact halloc si h

/-- C9: the two `createInvoice` implementations (main-stock-only in
invoices.ts, B2B-fallback in the unnamed invoice route file) are equivalent
whenever every non-adjustment item can be satisfied from main stock alone —
`product.stockQty ≥ item.qty` at each step of the loop: both finalize with
status 201, both leave each product with the same final `stockQty`, the B2B
lots are untouched, and the recorded `b2bAllocations` (the only extra field
the B2B version stores) are all empty. -/
theorem createInvoice_implementations_equiv (ps : List (Nat × Product))
    (lots : List B2BLot) (items : List InvoiceItem)
    (hsuff : mainOnlySufficient ps items = true)
    (hlots : ∀ l ∈ lots, 0 ≤ l.quantityAvailable) :
    (createInvoiceMain ps items true).1 = respCreated ∧
    (createInvoiceB2B ps lots items true).1 = respCreated ∧
    (createInvoiceB2B ps lots items true).2.1 = (createInvoiceMain ps items true).2 ∧
    (createInvoiceB2B ps lots items true).2.2.1 = lots ∧
    ∀ si ∈ (createInvoiceB2B ps lots items true).2.2.2, si.b2bAllocations = [] := by
  obtain ⟨ps', hmain, out, hb2b, hop, hol, halloc⟩ :=
    processInvoice_equiv items ps lots hsuff hlots
  unfold createInvoiceMain createInvoiceB2B
  rw [if_pos rfl, if_pos rfl, hmain, hb2b]
  exact ⟨rfl, rfl, hop, hol, halloc⟩

/-- Witness for C9: one product with enough stock, one B2B lot untouched. -/
theorem createInvoice_implementations_equiv_witness :
    (mainOnlySufficient [(1, ⟨"Chair", some 2, some 5, 10⟩)] [⟨1, 4, false⟩] = true) ∧
    (∀ l ∈ [B2BLot.mk 9 3], 0 ≤ l.quantityAvailable) ∧
    ((createInvoiceMain [(1, ⟨"Chair", some 2, some 5, 10⟩)] [⟨1, 4, false⟩] true).1
       = respCreated ∧
     (createInvoiceB2B [(1, ⟨"Chair", some 2, some 5, 10⟩)] [B2BLot.mk 9 3]
       [⟨1, 4, false⟩] true).1 = respCreated ∧
     (createInvoiceB2B [(1, ⟨"Chair", some 2, some 5, 10⟩)] [B2BLot.mk 9 3]
       [⟨1, 4, false⟩] true).2.1 =
       (createInvoiceMain [(1, ⟨"Chair", some 2, some 5, 10⟩)] [⟨1, 4, false⟩] true).2 ∧
     (createInvoiceB2B [(1, ⟨"Chair", some 2, some 5, 10⟩)] [B2BLot.mk 9 3]
       [⟨1, 4, false⟩] true).2.2.1 = [B2BLot.mk 9 3] ∧
     ∀ si ∈ (createInvoiceB2B [(1, ⟨"Chair", some 2, some 5, 10⟩)] [B2BLot.mk 9 3]
       [⟨1, 4, false⟩] true).2.2.2, si.b2bAllocations = []) :=
  ⟨by norm_num [mainOnlySufficient, findProduct, setProduct], by decide,
   createInvoice_implementations_equiv [(1, ⟨"Chair", some 2, some 5, 10⟩)]
     [B2BLot.mk 9 3] [⟨1, 4, false⟩]
     (by norm_num [mainOnlySufficient, findProduct, setProduct]) (by decide)⟩

/-! ## C10: payment clamping -/

/-- C10 counterexample: an invoice with a sub-cent `grandTotal` of 0.005 and
a payment of 0.005.  The recorded payment amount is the claimed minimum, but
`toFixed(2)` rounds the new `totals.paid` up to 0.01, which exceeds
`grandTotal` — contradicting "totals.paid never exceeds totals.grandTotal". -/
theorem createInvoicePayment_rounding_counterexample :
    ((createInvoicePayment (some ⟨1/200, 0, 1/200⟩) (1/200)).2.1.map (·.paid) =
      some (1/100)) ∧
    ((createInvoicePayment (some ⟨1/200, 0, 1/200⟩) (1/200)).2.2.map (·.amount) =
      some (1/200)) ∧
    ¬ (1/100 : ℚ) ≤ 1/200 := by
  refine ⟨?_, ?_, by norm_num⟩ <;>
    norm_num [createInvoicePayment, round2]

theorem round2_centMultiple {x : ℚ} (h : centMultiple x) : round2 x = x := by
  obtain ⟨k, rfl⟩ := h
  unfold round2
  have h100 : ((k : ℚ) / 100) * 100 = (k : ℚ) := by ring
  rw [h100]
  have : ⌊(k : ℚ) + 1/2⌋ = k := by
    rw [Int.floor_int_add]
    norm_num
  rw [this]

theorem centMultiple_sub {x y : ℚ} (hx : centMultiple x) (hy : centMultiple y) :
    centMultiple (x - y) := by
  obtain ⟨k, rfl⟩ := hx
  obtain ⟨m, rfl⟩ := hy
  exact ⟨k - m, by push_cast; ring⟩

theorem centMultiple_add {x y : ℚ} (hx : centMultiple x) (hy : centMultiple y) :
    centMultiple (x + y) := by
  obtain ⟨k, rfl⟩ := hx
  obtain ⟨m, rfl⟩ := hy
  exact ⟨k + m, by push_cast; ring⟩

theorem centMultiple_min {x y : ℚ} (hx : centMultiple x) (hy : centMultiple y) :
    centMultiple (min x y) := by
  rcases le_total x y with h | h
  · rw [min_eq_left h]; exact hx
  · rw [min_eq_right h]; exact hy

theorem centMultiple_max0 {x : ℚ} (hx : centMultiple x) :
    centMultiple (max 0 x) := by
  rcases le_total x 0 with h | h
  · rw [max_eq_left h]; exact ⟨0, by norm_num⟩
  · rw [max_eq_right h]; exact hx

/-- C10 (amended): `createInvoicePayment` clamps every payment to the
invoice's outstanding balance: for every invoice and every `amount > 0` the
recorded `Payment` amount equals `min(amount, max(0, grandTotal - paid))`,
the stored totals are the cent-rounded `paid + credit` and
`max(0, round2(grandTotal - paid))`, and `totals.pending ≥ 0` always.
Provided `totals.grandTotal`, `totals.paid` and the payment amount are
whole-cent values with `paid ≤ grandTotal` beforehand, the rounding is the
identity, so after the update `totals.paid` still does not exceed
`totals.grandTotal` and `totals.pending = max(0, grandTotal - paid)`.  (For
sub-cent values the `toFixed(2)` rounding of the stored totals can push
`paid` above `grandTotal`; the clamp on the recorded amount is exact
regardless.) -/
theorem createInvoicePayment_clamps (t : InvoiceTotals) (amount : ℚ)
    (hamt : 0 < amount) :
    (∃ t' pay, createInvoicePayment (some t) amount = (respCreated, some t', some pay) ∧
      pay.amount = min amount (max 0 (t.grandTotal - t.paid)) ∧
      t'.grandTotal = t.grandTotal ∧
      t'.paid = round2 (t.paid + pay.amount) ∧
      t'.pending = max 0 (round2 (t.grandTotal - t'.paid)) ∧
      0 ≤ t'.pending) ∧
    (t.paid ≤ t.grandTotal → centMultiple t.grandTotal → centMultiple t.paid →
      centMultiple amount →
      ∃ t' pay, createInvoicePayment (some t) amount = (respCreated, some t', some pay) ∧
        pay.amount = min amount (max 0 (t.grandTotal - t.paid)) ∧
        t'.grandTotal = t.grandTotal ∧
        t'.paid = t.paid + pay.amount ∧
        t'.paid ≤ t.grandTotal ∧
        t'.pending = max 0 (t.grandTotal - t'.paid) ∧
        0 ≤ t'.pending) := by
  have hna : ¬ amount ≤ 0 := not_le.mpr hamt
  have hrun : createInvoicePayment (some t) amount =
      (respCreated,
        some ⟨t.grandTotal,
          round2 (t.paid + min amount (max 0 (t.grandTotal - t.paid))),
          max 0 (round2 (t.grandTotal -
            round2 (t.paid + min amount (max 0 (t.grandTotal - t.paid)))))⟩,
        some ⟨min amount (max 0 (t.grandTotal - t.paid))⟩) := by
    simp only [createInvoicePayment]
    rw [if_neg hna]
  constructor
  · exact ⟨_, _, hrun, rfl, rfl, rfl, rfl, le_max_left _ _⟩
  · intro hle hcg hcp hca
    have hpend : centMultiple (max 0 (t.grandTotal - t.paid)) :=
      centMultiple_max0 (centMultiple_sub hcg hcp)
    have hcredit : centMultiple (min amount (max 0 (t.grandTotal - t.paid))) :=
      centMultiple_min hca hpend
    have hnewpaid : centMultiple (t.paid + min amount (max 0 (t.grandTotal - t.paid))) :=
      centMultiple_add hcp hcredit
    have hr1 : round2 (t.paid + min amount (max 0 (t.grandTotal - t.paid))) =
        t.paid + min amount (max 0 (t.grandTotal - t.paid)) :=
      round2_centMultiple hnewpaid
    have hple : t.paid + min amount (max 0 (t.grandTotal - t.paid)) ≤ t.grandTotal := by
      have h1 : min amount (max 0 (t.grandTotal - t.paid)) ≤ max 0 (t.grandTotal - t.paid) :=
        min_le_right _ _
      have h2 : max 0 (t.grandTotal - t.paid) = t.grandTotal - t.paid :=
        max_eq_right (by linarith)
      linarith [h1, h2.le, h2.ge]
    have hr2 : round2 (t.grandTotal -
        (t.paid + min amount (max 0 (t.grandTotal - t.paid)))) =
        t.grandTotal - (t.paid + min amount (max 0 (t.grandTotal - t.paid))) :=
      round2_centMultiple (centMultiple_sub hcg hnewpaid)
    refine ⟨⟨t.grandTotal, t.paid + min amount (max 0 (t.grandTotal - t.paid)),
        max 0 (t.grandTotal - (t.paid + min amount (max 0 (t.grandTotal - t.paid))))⟩,
      ⟨min amount (max 0 (t.grandTotal - t.paid))⟩, ?_, rfl, rfl, rfl, hple, rfl,
      le_max_left _ _⟩
    rw [hrun, hr1, hr2]

/-- Witness for C10 at whole-cent values: invoice of 10.00 with 2.50 paid,
payment of 20.00 (clamped to 7.50). -/
theorem createInvoicePayment_clamps_witness :
    (0:ℚ) < 20 ∧
    ((∃ t' pay, createInvoicePayment (some ⟨10, 5/2, 15/2⟩) 20 =
        (respCreated, some t', some pay) ∧
      pay.amount = min 20 (max 0 ((10:ℚ) - 5/2)) ∧
      t'.grandTotal = 10 ∧
      t'.paid = round2 (5/2 + pay.amount) ∧
      t'.pending = max 0 (round2 (10 - t'.paid)) ∧
      0 ≤ t'.pending) ∧
    ((5/2:ℚ) ≤ 10 → centMultiple 10 → centMultiple (5/2) → centMultiple 20 →
      ∃ t' pay, createInvoicePayment (some ⟨10, 5/2, 15/2⟩) 20 =
          (respCreated, some t', some pay) ∧
        pay.amount = min 20 (max 0 ((10:ℚ) - 5/2)) ∧
        t'.grandTotal = 10 ∧
        t'.paid = 5/2 + pay.amount ∧
        t'.paid ≤ 10 ∧
        t'.pending = max 0 ((10:ℚ) - t'.paid) ∧
        0 ≤ t'.pending)) :=
  ⟨by norm_num, createInvoicePayment_clamps ⟨10, 5/2, 15/2⟩ 20 (by norm_num)⟩

